import Mathlib

/-!
# KubePi: cluster onboarding and the Kubernetes API gateway

A shallow embedding of `internal/api/v1/proxy/proxy.go` and
`internal/api/v1/cluster/cluster.go`.

Conventions of the embedding:

* a Go `string` is a Lean `String`; the only separator the code splits on is
  the one-byte `/`, so splitting characters and splitting bytes agree;
* a Go `int` is a Lean `Int` kept in the 64-bit two-complement range by
  `wrapInt` at every arithmetic operation on caller-supplied values;
* a Go slice is a Lean `List`; a slice expression is `goSlice`, which faults
  where the Go runtime panics;
* a Go `error` is its message; a run-time panic is a separate kind of `Fault`;
* library and collaborator calls that are not part of the two files
  (`json.Unmarshal`, `url.Parse`, the cluster client, the storage services)
  are parameters of the embedded functions.
-/

namespace KubePi

/-! ## Go runtime -/

/-- The two ways a Go computation ends without a value: an `error` was
returned, or the runtime panicked. -/
inductive Fault where
  | error (msg : String)
  | panic (msg : String)
deriving DecidableEq, Repr

deriving instance DecidableEq for Except

/-- Largest value of a 64-bit Go `int`. -/
def maxInt : Int := 9223372036854775807

/-- Smallest value of a 64-bit Go `int`. -/
def minInt : Int := -9223372036854775808

/-- Reduction of a mathematical integer to the 64-bit Go `int` it is stored
as (two-complement wrap-around). -/
def wrapInt (x : Int) : Int :=
  (x + 9223372036854775808) % 18446744073709551616 - 9223372036854775808

/-- The slice expression `xs[low:high]`.  The runtime panics unless
`0 <= low <= high <= cap(xs)`; both call sites pass `high <= len(xs)`, and
`len(xs) <= cap(xs)`, so the bound is taken against the length. -/
def goSlice {α : Type} (xs : List α) (low high : Int) : Except Fault (List α) :=
  if 0 ≤ low ∧ low ≤ high ∧ high ≤ (xs.length : Int) then
    .ok ((xs.drop low.toNat).take (high.toNat - low.toNat))
  else
    .error (.panic "slice bounds out of range")

/-- The part of `fmt.Sprintf` the code uses: the verb `%s` on string
operands.  A verb with no operand left prints `%!s(MISSING)`. -/
def sprintfAux : List Char → List String → List Char
  | '%' :: 's' :: rest, a :: as => a.data ++ sprintfAux rest as
  | '%' :: 's' :: rest, [] => "%!s(MISSING)".data ++ sprintfAux rest []
  | c :: rest, as => c :: sprintfAux rest as
  | [], _ => []

/-- Embedding of `fmt.Sprintf(format, args...)`. -/
def Sprintf (format : String) (args : List String) : String :=
  String.mk (sprintfAux format.data args)

/-- Embedding of `strings.Split(s, "/")` on the characters of `s`. -/
def splitSlash : List Char → List (List Char)
  | [] => [[]]
  | c :: cs =>
    if c = '/' then [] :: splitSlash cs
    else
      match splitSlash cs with
      | h :: t => (c :: h) :: t
      | [] => [[c]]

/-- Embedding of `strings.Join(ss, "/")` on character lists. -/
def joinSlash : List (List Char) → List Char
  | [] => []
  | [s] => s
  | s :: t :: rest => s ++ '/' :: joinSlash (t :: rest)

/-- Embedding of `strings.HasSuffix(s, "/")`. -/
def hasSuffixSlash (s : String) : Bool :=
  match s.data.getLast? with
  | some c => c == '/'
  | none => false

/-- Embedding of `strings.Join(ss, "")`. -/
def joinEmpty (ss : List String) : String :=
  String.mk (ss.map String.data).flatten

/-! ## Pagination (`proxy.go`, `K8sObj` and `pageFilter`) -/

/-- An untyped JSON value (`interface{}`), kept as its encoding. -/
abbrev Any := String

/-- The struct `metadata`. -/
structure metadata where
  Name : String
  Namespace : String
deriving DecidableEq, Repr

/-- The struct `pageItem`. -/
structure pageItem where
  Metadata : metadata
  Spec : Any
  Status : Any
deriving DecidableEq, Repr

/-- The struct `K8sObj`. -/
structure K8sObj where
  Kind : String
  ApiVersion : String
  Metadata : Any
  Items : List pageItem
deriving DecidableEq, Repr

/-- Embedding of `pageFilter(num, size, resp)`.  `unmarshal` is
`json.Unmarshal` into a `K8sObj`.  The Go function returns
`(total, datas, err)`; the result `.ok (total, datas)` is the return with a
nil error, `.error (.error e)` the return `(0, datas, err)` after a failed
decode, and `.error (.panic _)` a slice expression out of range. -/
def pageFilter (unmarshal : String → Except String K8sObj) (num size : Int)
    (resp : String) : Except Fault (Int × K8sObj) :=
  match unmarshal resp with
  | .error e => .error (.error e)
  | .ok datas =>
    let total : Int := datas.Items.length
    let low := wrapInt (wrapInt (num - 1) * size)
    if low ≥ total then
      .ok (total, { datas with Items := [] })
    else
      let high := wrapInt (num * size)
      if high < total then
        match goSlice datas.Items low high with
        | .ok items => .ok (total, { datas with Items := items })
        | .error f => .error f
      else
        match goSlice datas.Items low total with
        | .ok items => .ok (total, { datas with Items := items })
        | .error f => .error f

/-- The window the specification asks for: the items from index
`(pageNum-1)*pageSize` up to `min(pageNum*pageSize, n)`, over the integers. -/
def specWindow {α : Type} (items : List α) (pageNum pageSize : Int) : List α :=
  (items.drop ((pageNum - 1) * pageSize).toNat).take
    ((min (pageNum * pageSize) items.length).toNat - ((pageNum - 1) * pageSize).toNat)

/-- A list body of `n` items named `0 .. n-1`. -/
def sampleList (n : Nat) : K8sObj :=
  { Kind := "PodList", ApiVersion := "v1", Metadata := "null",
    Items := (List.range n).map fun i =>
      { Metadata := { Name := toString i, Namespace := "default" }, Spec := "null", Status := "null" } }

/-- A decoder that reads every body as the list `sampleList n`. -/
def decodeAs (n : Nat) : String → Except String K8sObj := fun _ => .ok (sampleList n)


/-! ## Paths (`proxy.go`, `ensureProxyPathValid`, `parseResourceName`, `addUrlNamespace`) -/

/-- Embedding of `ensureProxyPathValid(path)`. -/
def ensureProxyPathValid (path : String) : String :=
  if !hasSuffixSlash path then "/" ++ path else path

/-- Embedding of `parseResourceName(path)`: the pair `(name, err)` as an
`Except`.  `ss[len(ss)-1]` is the last element of a slice the guard has found
non-empty. -/
def parseResourceName (path : String) : Except String String :=
  let ss := splitSlash path.data
  if ss.length > 0 then
    .ok (String.mk (ss.getLastD []))
  else
    .error (Sprintf "cant not get resource name from url %s" [path])

/-- Embedding of `addUrlNamespace(path, ns)`.  `strings.Split` with a
non-empty separator returns at least one element (`splitSlash_ne_nil` below),
so `ss[len(ss)-1]` and `ss[:len(ss)-1]` are the last element and the list
without it; `resourceName` is read before the `append`. -/
def addUrlNamespace (path : String) (ns : String) : String :=
  let ss := splitSlash path.data
  let resourceName := ss.getLastD []
  let per := ss.dropLast
  let namespacedSs := per ++ ["namespaces".data, ns.data, resourceName]
  String.mk (joinSlash namespacedSs)

/-! ## Fan-out over namespaces (`proxy.go`, `fetchMultiNamespaceResource`) -/

/-- The struct `metav1.TypeMeta`. -/
structure TypeMeta where
  Kind : String
  APIVersion : String
deriving DecidableEq, Repr

/-- The struct `metav1.ListMeta`. -/
structure ListMeta where
  SelfLink : String
  ResourceVersion : String
  Continue : String
  RemainingItemCount : Option Int
deriving DecidableEq, Repr

/-- The struct `NamespaceResourceContainer`. -/
structure NamespaceResourceContainer where
  TypeMeta : KubePi.TypeMeta
  ListMeta : KubePi.ListMeta
  Items : List Any
  Namespaces : List String
deriving DecidableEq, Repr

/-- The zero value of `NamespaceResourceContainer` (`var mergedContainer`). -/
def NamespaceResourceContainer.zero : NamespaceResourceContainer :=
  { TypeMeta := { Kind := "", APIVersion := "" },
    ListMeta := { SelfLink := "", ResourceVersion := "", Continue := "", RemainingItemCount := none },
    Items := [], Namespaces := [] }

/-- The fields of `url.URL` the code reads or writes. -/
structure URL where
  Scheme : String
  Host : String
  Path : String
  RawQuery : String
deriving DecidableEq, Repr

/-- An `http.Response` as the code uses it: the status code and what
`ioutil.ReadAll(r.Body)` returns, the bytes read and the read error. -/
structure Response where
  StatusCode : Int
  Body : String
  ReadErr : Option String
deriving DecidableEq, Repr

/-- The variables of the merge loop: `mergedContainer`, `forbidden`,
`forbiddenMessage`.  `forbidden` counts elements of a slice, whose length is
a Go `int`, so the increment does not wrap. -/
structure MergeState where
  mergedContainer : NamespaceResourceContainer
  forbidden : Int
  forbiddenMessage : List String
deriving DecidableEq, Repr

/-- One iteration of `for i := range responses` in
`fetchMultiNamespaceResource`: `.error` is `return nil, err`. -/
def mergeStep (unmarshal : String → Except String NamespaceResourceContainer)
    (st : MergeState) (r : Response) : Except Fault MergeState :=
  match r.ReadErr with
  | some err => .error (.error err)
  | none =>
    if r.StatusCode ≠ 200 then
      if r.StatusCode = 403 then
        .ok { st with forbidden := st.forbidden + 1,
                      forbiddenMessage := st.forbiddenMessage ++ [r.Body] }
      else
        .error (.error r.Body)
    else
      match unmarshal r.Body with
      | .error err => .error (.error err)
      | .ok nc =>
        .ok { st with mergedContainer :=
                { st.mergedContainer with
                  TypeMeta := nc.TypeMeta, ListMeta := nc.ListMeta,
                  Items := st.mergedContainer.Items ++ nc.Items } }

/-- The loop `for i := range responses`, from a given state. -/
def mergeLoop (unmarshal : String → Except String NamespaceResourceContainer) :
    MergeState → List Response → Except Fault MergeState
  | st, [] => .ok st
  | st, r :: rs =>
    match mergeStep unmarshal st r with
    | .error f => .error f
    | .ok st1 => mergeLoop unmarshal st1 rs

/-- The part of `fetchMultiNamespaceResource` after `wg.Wait()`: the merge
of the collected `responses`, `nNamespaces` being `len(namespaces)`. -/
def mergeResponses (unmarshal : String → Except String NamespaceResourceContainer)
    (nNamespaces : Int) (responses : List Response) :
    Except Fault NamespaceResourceContainer :=
  match mergeLoop unmarshal ⟨NamespaceResourceContainer.zero, 0, []⟩ responses with
  | .error f => .error f
  | .ok st =>
    if nNamespaces = 1 ∧ st.forbidden = 1 then
      .error (.error (joinEmpty st.forbiddenMessage))
    else
      .ok st.mergedContainer

/-- The part of `fetchMultiNamespaceResource` before `wg.Wait()`: one
`client.Get` per namespace, on the URL whose path is
`addUrlNamespace(apiUrl.Path, ns)`; a finished call appends its response to
`responses` or its error to `es`.  `completed` lists, in order, the namespaces
whose append takes effect.  The goroutines append to the two shared slices
without synchronisation: when no two appends overlap, `completed` is a
permutation of the namespaces; when appends overlap, one can be lost, and
`completed` lacks that namespace.  The result is `(responses, es)`.  A slot
of `responses` that overlapping appends leave nil is not produced here; the
merge of a slice with such slots is `mergeSlice`. -/
def collectResponses (get : URL → Except String Response) (apiUrl : URL) :
    List String → List Response × List String
  | [] => ([], [])
  | ns :: rest =>
    let newUrl := { apiUrl with Path := addUrlNamespace apiUrl.Path ns }
    let (responses, es) := collectResponses get apiUrl rest
    match get newUrl with
    | .error err => (responses, err :: es)
    | .ok resp => (resp :: responses, es)

/-- The loop `for i := range responses` on the slice of pointers the
goroutines leave behind: an element is a response or nil, and
`ioutil.ReadAll(r.Body)` on a nil `r` is a nil-pointer dereference. -/
def mergeLoopSlice (unmarshal : String → Except String NamespaceResourceContainer) :
    MergeState → List (Option Response) → Except Fault MergeState
  | st, [] => .ok st
  | _, none :: _ => .error (.panic "invalid memory address or nil pointer dereference")
  | st, some r :: rs =>
    match mergeStep unmarshal st r with
    | .error f => .error f
    | .ok st1 => mergeLoopSlice unmarshal st1 rs

/-- The part of `fetchMultiNamespaceResource` after `wg.Wait()`, for every
content `slots` of the slice `responses`, nil elements included;
`nNamespaces` is `len(namespaces)`.  On a slice without nil elements it is
`mergeResponses`. -/
def mergeSlice (unmarshal : String → Except String NamespaceResourceContainer)
    (nNamespaces : Int) (slots : List (Option Response)) :
    Except Fault NamespaceResourceContainer :=
  match mergeLoopSlice unmarshal ⟨NamespaceResourceContainer.zero, 0, []⟩ slots with
  | .error f => .error f
  | .ok st =>
    if nNamespaces = 1 ∧ st.forbidden = 1 then
      .error (.error (joinEmpty st.forbiddenMessage))
    else
      .ok st.mergedContainer

/-- The responses a slice holds, its nil elements left out. -/
def present (slots : List (Option Response)) : List Response :=
  slots.filterMap id

/-- Embedding of `fetchMultiNamespaceResource(client, namespaces, apiUrl)` for
the runs in which overlapping appends leave no nil element.  `get` is
`client.Get`, `unmarshal` is `json.Unmarshal` into a
`NamespaceResourceContainer`, and `completion` gives, for a fan-out over
`namespaces`, the namespaces whose append takes effect, in order (see
`collectResponses`): a permutation of `namespaces` when no two appends
overlap, as with a single namespace, and any shorter list when appends are
lost. -/
def fetchMultiNamespaceResource (get : URL → Except String Response)
    (unmarshal : String → Except String NamespaceResourceContainer)
    (completion : List String → List String)
    (namespaces : List String) (apiUrl : URL) : Except Fault NamespaceResourceContainer :=
  let collected := collectResponses get apiUrl (completion namespaces)
  mergeResponses unmarshal (namespaces.length : Int) collected.1

/-! ## The gateway handler (`proxy.go`, `KubernetesAPIProxy`) -/

/-- A value stored under the key `message` of the call context. -/
inductive Value where
  | str (s : String)
  | strs (ss : List String)
deriving DecidableEq, Repr

/-- A response body the handler writes: the downstream bytes unchanged
(`ctx.Write(rawResp)`), the JSON encoding of `pkgV1.Page{Items: datas, Total:
total}`, or the JSON encoding of a merged container (`ctx.JSON(resp)`).  An
encoded body is kept as the value that is encoded. -/
inductive Payload where
  | raw (bytes : String)
  | page (total : Int) (items : K8sObj)
  | container (c : NamespaceResourceContainer)
deriving DecidableEq, Repr

/-- What a handler leaves on the call context: the code passed to
`ctx.StatusCode` (none when it is never called), the value set under
`message`, and the body written. -/
structure Reply where
  StatusCode : Option Int
  Message : Option Value
  Written : Option Payload
deriving DecidableEq, Repr

/-- The status line the caller receives: a handler that writes a body without
setting a code answers with the writer default, 200. -/
def Reply.status (r : Reply) : Int := r.StatusCode.getD 200

/-- The reply of every `ctx.StatusCode(iris.StatusInternalServerError)`
followed by `ctx.Values().Set("message", ...)` and `return`. -/
def serverError (msg : String) : Reply :=
  { StatusCode := some 500, Message := some (.str msg), Written := none }

/-- The fields of `v1Cluster.Cluster` the gateway reads. -/
structure Cluster where
  Name : String
  ApiServer : String
  PrivateKey : String
deriving DecidableEq, Repr

/-- The outgoing `http.Request`: method, URL, and the `Content-Type` header
when the handler sets it. -/
structure Request where
  Method : String
  Url : URL
  ContentType : Option String
deriving DecidableEq, Repr

/-- The result `(value, err)` of `ctx.Values().GetInt(key)`. -/
structure IntEntry where
  val : Int
  err : Option String
deriving DecidableEq, Repr

/-- The inbound call as the handler reads it from the context. -/
structure ProxyCall where
  name : String
  p : String
  nsParam : String
  method : String
  rawQuery : String
  profileName : String
  pageNum : IntEntry
  pageSize : IntEntry

/-- The collaborators of the gateway: the services, the cluster client, the
HTTP client and the standard-library decoders. -/
structure ProxyEnv where
  clusterGet : String → Except String Cluster
  getBinding : String → String → Except String String
  transportFor : Cluster → String → Except String Unit
  isNamespacedResource : String → Except String Bool
  canVisitAllNamespace : String → Except String Bool
  getUserNamespaceNames : String → Except String (List String)
  urlParse : String → Except String URL
  newRequest : String → URL → Except String Unit
  clientDo : Request → Except String Response
  clientGet : URL → Except String Response
  completion : List String → List String
  unmarshalK8sObj : String → Except String K8sObj
  unmarshalContainer : String → Except String NamespaceResourceContainer

/-- Embedding of `generateTLSTransport(c, username)`; the transport itself is
not represented, only whether building it fails. -/
def generateTLSTransport (env : ProxyEnv) (c : Cluster) (username : String) :
    Except String Unit :=
  match env.getBinding c.Name username with
  | .error err => .error err
  | .ok certificate => env.transportFor c certificate

/-- One run of the gateway handler: the request handed to `httpClient.Do` on
a single forwarded call (none on the fan-out path or when the handler returns
earlier), and the reply, or the panic that ended the handler. -/
structure ProxyRun where
  forwarded : Option Request
  reply : Except Fault Reply
deriving DecidableEq, Repr

/-- The tail of `KubernetesAPIProxy` from `rawResp, _ := ioutil.ReadAll`
on, given the downstream response of the single forwarded call. -/
def respond (env : ProxyEnv) (call : ProxyCall) (resp : Response) : Except Fault Reply :=
  let rawResp := resp.Body
  let statusCode := if resp.StatusCode = 403 then 500 else resp.StatusCode
  if call.pageNum.err = none ∨ call.pageSize.err = none then
    match pageFilter env.unmarshalK8sObj call.pageNum.val call.pageSize.val rawResp with
    | .error (.error err) => .ok (serverError err)
    | .error (.panic msg) => .error (.panic msg)
    | .ok (total, datas) =>
      .ok { StatusCode := none, Message := none, Written := some (.page total datas) }
  else
    .ok { StatusCode := some statusCode, Message := some (.str rawResp), Written := some (.raw rawResp) }

/-- The part of `KubernetesAPIProxy` from the routing decision on, given the
parsed `apiUrl` (its `RawQuery` already set). -/
def route (env : ProxyEnv) (call : ProxyCall) (namespaced canVisitAll : Bool) (apiUrl : URL) :
    ProxyRun :=
  if "GET" = call.method ∧ call.nsParam = "" ∧ namespaced = true ∧ canVisitAll = false then
    match env.getUserNamespaceNames call.profileName with
    | .error err => ⟨none, .ok (serverError err)⟩
    | .ok allowedNamespaces =>
      match fetchMultiNamespaceResource env.clientGet env.unmarshalContainer env.completion
          allowedNamespaces apiUrl with
      | .error (.error err) => ⟨none, .ok (serverError err)⟩
      | .error (.panic msg) => ⟨none, .error (.panic msg)⟩
      | .ok resp =>
        ⟨none, .ok { StatusCode := none, Message := none,
                     Written := some (.container resp) }⟩
  else
    let apiUrl1 :=
      if "GET" = call.method ∧ namespaced = true ∧ call.nsParam ≠ "" then
        { apiUrl with Path := addUrlNamespace apiUrl.Path call.nsParam }
      else apiUrl
    match env.newRequest call.method apiUrl1 with
    | .error err => ⟨none, .ok (serverError err)⟩
    | .ok _ =>
      let req : Request :=
        { Method := call.method, Url := apiUrl1,
          ContentType := if call.method = "PATCH" then some "application/merge-patch+json" else none }
      match env.clientDo req with
      | .error err => ⟨some req, .ok (serverError err)⟩
      | .ok resp => ⟨some req, respond env call resp⟩

/-- Embedding of the handler returned by `KubernetesAPIProxy()`. -/
def KubernetesAPIProxy (env : ProxyEnv) (call : ProxyCall) : ProxyRun :=
  let proxyPath := ensureProxyPathValid call.p
  match env.clusterGet call.name with
  | .error err => ⟨none, .ok (serverError (Sprintf "get cluster failed: %s" [err]))⟩
  | .ok c =>
    match generateTLSTransport env c call.profileName with
    | .error err => ⟨none, .ok (serverError err)⟩
    | .ok _ =>
      match parseResourceName proxyPath with
      | .error err => ⟨none, .ok (serverError err)⟩
      | .ok resourceName =>
        match env.isNamespacedResource resourceName with
        | .error err => ⟨none, .ok (serverError err)⟩
        | .ok namespaced =>
          match env.canVisitAllNamespace call.profileName with
          | .error err => ⟨none, .ok (serverError err)⟩
          | .ok canVisitAll =>
            match env.urlParse (Sprintf "%s%s" [c.ApiServer, proxyPath]) with
            | .error err => ⟨none, .ok (serverError err)⟩
            | .ok apiUrl =>
              route env call namespaced canVisitAll { apiUrl with RawQuery := call.rawQuery }

/-! ## Admission preflight (`cluster.go`, `checkRequiredPermissions`) -/

/-- The fields of `authV1.ResourceAttributes` the preflight sets. -/
structure ResourceAttributes where
  Verb : String
  Resource : String
deriving DecidableEq, Repr

/-- Modelled from the spec: the struct `kubernetes.PermissionCheckResult`,
declared outside the two files, "a transient (resource-kind, verb, allowed)
triple"; the code reads its field `Allowed`. -/
structure PermissionCheckResult where
  Resource : String
  Verb : String
  Allowed : Bool
deriving DecidableEq, Repr

/-- The checks `checkRequiredPermissions` starts: one goroutine per verb of
every key of the map `requiredPermissions`, given as its key–value pairs. -/
def permissionMatrix (requiredPermissions : List (String × List String)) :
    List ResourceAttributes :=
  requiredPermissions.flatMap fun kv =>
    kv.2.map fun verb => { Verb := verb, Resource := kv.1 }

/-- The `for { select { ... } }` loop of `checkRequiredPermissions` on the
outcomes of the checks in the order they reach the loop: an outcome
`.error err` arrives on `errCh`, an outcome `.ok b` on `resultCh`, and
`doneCh` fires once every goroutine has delivered.  The result is the
returned pair `(string, error)`. -/
def aggregate : List (Except String PermissionCheckResult) → String × Option String
  | [] => ("", none)
  | .error err :: _ => ("", some err)
  | .ok b :: rest =>
    if !b.Allowed then (Sprintf "%s-%s" [], none)
    else aggregate rest

/-- Embedding of `checkRequiredPermissions(client, requiredPermissions)`.
`hasPermission` is `client.HasPermission`; `schedule` gives the order in
which the started checks deliver their outcome. -/
def checkRequiredPermissions
    (hasPermission : ResourceAttributes → Except String PermissionCheckResult)
    (schedule : List ResourceAttributes → List ResourceAttributes)
    (requiredPermissions : List (String × List String)) : String × Option String :=
  aggregate ((schedule (permissionMatrix requiredPermissions)).map hasPermission)

/-! ## Registration (`cluster.go`, `CreateCluster`, up to the background task) -/

/-- The fields of the request struct `Cluster` (with the embedded
`v1Cluster.Cluster`) that `CreateCluster` reads or writes. -/
structure ClusterReq where
  Name : String
  Mode : String
  ConfigFileContentStr : String
  ConfigFileContent : String
  CaDataStr : String
  CaCertData : String
  CertDataStr : String
  KeyDataStr : String
  CertData : String
  KeyData : String
  ApiServer : String
  PrivateKey : String
  CreatedBy : String
  Version : String
  Phase : String
  Message : String
deriving DecidableEq, Repr

/-- Modelled from the spec: the constant `clusterStatusSaved`, declared
outside the two files; the spec names the phase `Saved`. -/
def clusterStatusSaved : String := "Saved"

/-- The map literal `requiredPermissions` of `CreateCluster`. -/
def requiredPermissions : List (String × List String) :=
  [ ("namespaces", ["get", "post", "delete"]),
    ("clusterroles", ["get", "post", "delete"]),
    ("clusterrolebings", ["get", "post", "delete"]),
    ("roles", ["get", "post", "delete"]),
    ("rolebindings", ["get", "post", "delete"]) ]

/-- What a registration run does to its collaborators, in program order. -/
inductive Effect where
  | txBegin
  | clusterCreate (row : ClusterReq)
  | preflight (notAllowed : String) (err : Option String)
  | roleBinding (role : String) (user : String)
  | txRollback
  | txCommit
  | spawnProvision
deriving DecidableEq, Repr

/-- The collaborators of `CreateCluster` and the outcome each call has. -/
structure CreateEnv where
  readJSON : Except String ClusterReq
  generatePrivateKey : Except String String
  ping : Option String
  version : String
  config : Except String String
  profileName : String
  dbBegin : Option String
  create : ClusterReq → Option String
  hasPermission : ResourceAttributes → Except String PermissionCheckResult
  schedule : List ResourceAttributes → List ResourceAttributes
  createOrUpdateClusterRoleBinding : Option String

/-- One run of the registration handler up to the start of the background
task: the effects in order, the reply, and the value set under `data`. -/
structure CreateRun where
  effects : List Effect
  reply : Reply
  data : Option ClusterReq
deriving DecidableEq, Repr

/-- The part of `CreateCluster` from `server.DB().Begin(true)` on. -/
def register (env : CreateEnv) (req : ClusterReq) : CreateRun :=
  match env.dbBegin with
  | some err => ⟨[], serverError err, none⟩
  | none =>
    let req := { req with Phase := clusterStatusSaved }
    match env.create req with
    | some err => ⟨[.txBegin, .clusterCreate req], serverError err, none⟩
    | none =>
      match checkRequiredPermissions env.hasPermission env.schedule requiredPermissions with
      | (notAllowed, some err) =>
        ⟨[.txBegin, .clusterCreate req, .preflight notAllowed (some err)], serverError err, none⟩
      | (notAllowed, none) =>
        if notAllowed ≠ "" then
          ⟨[.txBegin, .clusterCreate req, .preflight notAllowed none],
            { StatusCode := some 500,
              Message := some (.strs ["permission %s required", notAllowed]),
              Written := none }, none⟩
        else
          match env.createOrUpdateClusterRoleBinding with
          | some err =>
            ⟨[.txBegin, .clusterCreate req, .preflight notAllowed none,
               .roleBinding "admin-cluster" env.profileName, .txRollback],
              serverError err, none⟩
          | none =>
            ⟨[.txBegin, .clusterCreate req, .preflight notAllowed none,
               .roleBinding "admin-cluster" env.profileName, .txCommit, .spawnProvision],
              { StatusCode := none, Message := none, Written := none }, some req⟩

/-- Embedding of the handler returned by `CreateCluster()`, up to the start of
the background task. -/
def CreateCluster (env : CreateEnv) : CreateRun :=
  match env.readJSON with
  | .error err => ⟨[], { StatusCode := some 400, Message := some (.str err), Written := none }, none⟩
  | .ok req =>
    let req := if req.ConfigFileContentStr ≠ "" then
      { req with ConfigFileContent := req.ConfigFileContentStr } else req
    let req := if req.CaDataStr ≠ "" then { req with CaCertData := req.CaDataStr } else req
    let req := if req.Mode = "certificate" then
      { req with CertData := req.CertDataStr, KeyData := req.KeyDataStr } else req
    match env.generatePrivateKey with
    | .error err => ⟨[], serverError err, none⟩
    | .ok privateKey =>
      let req := { req with PrivateKey := privateKey }
      match env.ping with
      | some err => ⟨[], serverError err, none⟩
      | none =>
        let req := { req with Version := env.version }
        if req.Mode = "configFile" then
          match env.config with
          | .error err => ⟨[], serverError err, none⟩
          | .ok host =>
            register env { req with ApiServer := host, CreatedBy := env.profileName }
        else
          register env { req with CreatedBy := env.profileName }

/-! ## Sample collaborators -/

/-- A cluster client that denies exactly the check `(resource, verb)` and
allows every other one. -/
def denyOnly (resource verb : String) :
    ResourceAttributes → Except String PermissionCheckResult := fun a =>
  .ok { Resource := a.Resource, Verb := a.Verb,
        Allowed := !(a.Resource == resource && a.Verb == verb) }

/-- A registration request for a cluster named `demo`. -/
def sampleReq : ClusterReq :=
  { Name := "demo", Mode := "bearer", ConfigFileContentStr := "", ConfigFileContent := "",
    CaDataStr := "", CaCertData := "", CertDataStr := "", KeyDataStr := "", CertData := "",
    KeyData := "", ApiServer := "https://10.0.0.1:6443", PrivateKey := "", CreatedBy := "",
    Version := "", Phase := "", Message := "" }

/-- A registration in which every collaborator call succeeds and the cluster
denies `delete` on `roles`. -/
def deniedEnv : CreateEnv :=
  { readJSON := .ok sampleReq, generatePrivateKey := .ok "key", ping := none,
    version := "v1.19.0", config := .ok "https://10.0.0.1:6443", profileName := "admin",
    dbBegin := none, create := fun _ => none, hasPermission := denyOnly "roles" "delete",
    schedule := id, createOrUpdateClusterRoleBinding := none }

/-! ## Reading the collected responses of a fan-out -/

/-- The container a response contributes to the merge: its decoded body when
the body was read, the status is 200 and the body decodes. -/
def decodedOf (unmarshal : String → Except String NamespaceResourceContainer)
    (r : Response) : Option NamespaceResourceContainer :=
  if r.ReadErr = none ∧ r.StatusCode = 200 then
    match unmarshal r.Body with
    | .ok nc => some nc
    | .error _ => none
  else none

/-- The decoded successful responses, in the order of `responses`. -/
def successes (unmarshal : String → Except String NamespaceResourceContainer)
    (responses : List Response) : List NamespaceResourceContainer :=
  responses.filterMap (decodedOf unmarshal)

/-- The bodies of the responses with status 403, in the order of `responses`. -/
def forbiddenBodies (responses : List Response) : List String :=
  (responses.filter fun r => r.StatusCode = 403).map fun r => r.Body

/-- A response the merge loop does not abort on: its body was read, and it is
a 200 whose body decodes or a 403. -/
def Tolerated (unmarshal : String → Except String NamespaceResourceContainer)
    (r : Response) : Prop :=
  r.ReadErr = none ∧
    ((r.StatusCode = 200 ∧ ∃ nc, unmarshal r.Body = .ok nc) ∨ r.StatusCode = 403)

instance instDecidableTolerated
    (unmarshal : String → Except String NamespaceResourceContainer) (r : Response) :
    Decidable (Tolerated unmarshal r) :=
  have : Decidable (∃ nc, unmarshal r.Body = .ok nc) :=
    match unmarshal r.Body with
    | .ok nc => isTrue ⟨nc, rfl⟩
    | .error _ => isFalse (fun ⟨_, hnc⟩ => Except.noConfusion hnc)
  inferInstanceAs (Decidable (r.ReadErr = none ∧
    ((r.StatusCode = 200 ∧ ∃ nc, unmarshal r.Body = .ok nc) ∨ r.StatusCode = 403)))

/-- The three assignments that end an iteration of the merge loop. -/
def absorb (m nc : NamespaceResourceContainer) : NamespaceResourceContainer :=
  { m with TypeMeta := nc.TypeMeta, ListMeta := nc.ListMeta, Items := m.Items ++ nc.Items }

/-- The URL `fetchMultiNamespaceResource` requests for the namespace `ns`. -/
def namespaceUrl (apiUrl : URL) (ns : String) : URL :=
  { apiUrl with Path := addUrlNamespace apiUrl.Path ns }

/-- The URL of a proxied list of pods. -/
def sampleApiUrl : URL :=
  { Scheme := "https", Host := "10.0.0.1:6443", Path := "/api/v1/pods", RawQuery := "" }

/-- A container with the given resource version and items. -/
def sampleContainer (version : String) (items : List Any) : NamespaceResourceContainer :=
  { TypeMeta := { Kind := "PodList", APIVersion := "v1" },
    ListMeta := { SelfLink := "", ResourceVersion := version, Continue := "",
                  RemainingItemCount := none },
    Items := items, Namespaces := [] }

/-- A decoder for the bodies `A`, `B` and `C`; any other body is not JSON. -/
def sampleUnmarshal : String → Except String NamespaceResourceContainer := fun body =>
  if body = "A" then .ok (sampleContainer "101" ["a1", "a2"])
  else if body = "B" then .ok (sampleContainer "102" ["b1", "b2"])
  else if body = "C" then .ok (sampleContainer "103" ["c1", "c2"])
  else .error "invalid character"

/-- A cluster in which the namespaces `a`, `b` and `c` answer 200 with the
bodies `A`, `B` and `C`, the namespace `denied` answers 403, the namespace
`broken` answers 500, and a request for any other namespace fails in
transport. -/
def sampleGet : URL → Except String Response := fun u =>
  if u.Path = "/api/v1/namespaces/a/pods" then .ok ⟨200, "A", none⟩
  else if u.Path = "/api/v1/namespaces/b/pods" then .ok ⟨200, "B", none⟩
  else if u.Path = "/api/v1/namespaces/c/pods" then .ok ⟨200, "C", none⟩
  else if u.Path = "/api/v1/namespaces/denied/pods" then .ok ⟨403, "pods is forbidden", none⟩
  else if u.Path = "/api/v1/namespaces/broken/pods" then .ok ⟨500, "etcd unavailable", none⟩
  else .error "dial tcp 10.0.0.1:6443: connect: connection refused"

/-- A `url.Parse` for addresses of the cluster `https://10.0.0.1:6443`: what
follows the address is the path, which is empty or begins with `/`; anything
else would be read as part of the port and is refused. -/
def sampleParse : String → Except String URL := fun s =>
  if s.data.take 21 = "https://10.0.0.1:6443".data then
    match s.data.drop 21 with
    | [] => .ok { Scheme := "https", Host := "10.0.0.1:6443", Path := "", RawQuery := "" }
    | '/' :: rest =>
      .ok { Scheme := "https", Host := "10.0.0.1:6443", Path := String.mk ('/' :: rest),
            RawQuery := "" }
    | _ => .error "invalid port after host"
  else .error "first path segment in URL cannot contain colon"

/-- A decoder of `K8sObj` for two bodies: `pod-list`, a list of three pods,
and `status-forbidden`, the `Status` object a cluster sends with a 403, which
has a kind and no `items`. -/
def sampleUnmarshalK8sObj : String → Except String K8sObj := fun body =>
  if body = "pod-list" then .ok (sampleList 3)
  else if body = "status-forbidden" then
    .ok { Kind := "Status", ApiVersion := "v1", Metadata := "null", Items := [] }
  else .error "invalid character"

/-- A gateway in front of one cluster whose answer to every single forwarded
call is `downstream`; pods are namespace-scoped and the caller may visit all
namespaces. -/
def sampleProxyEnv (downstream : Response) : ProxyEnv :=
  { clusterGet := fun name => .ok ⟨name, "https://10.0.0.1:6443", "key"⟩,
    getBinding := fun _ _ => .ok "certificate",
    transportFor := fun _ _ => .ok (),
    isNamespacedResource := fun kind => .ok (kind == "pods"),
    canVisitAllNamespace := fun _ => .ok true,
    getUserNamespaceNames := fun _ => .ok [],
    urlParse := sampleParse,
    newRequest := fun _ _ => .ok (),
    clientDo := fun _ => .ok downstream,
    clientGet := sampleGet,
    completion := id,
    unmarshalK8sObj := sampleUnmarshalK8sObj,
    unmarshalContainer := sampleUnmarshal }

/-- A `GET` of the pods of the cluster `demo`, with the given namespace
parameter and pagination entries. -/
def sampleCall (ns : String) (pageNum pageSize : IntEntry) : ProxyCall :=
  { name := "demo", p := "api/v1/pods", nsParam := ns, method := "GET", rawQuery := "",
    profileName := "admin", pageNum := pageNum, pageSize := pageSize }

/-- An entry `GetInt` returns for a key that is not set: an error, with the
zero value.  The handler reads the value only when the other key is set. -/
def absent : IntEntry := { val := 0, err := some "not found" }

/-! ## Background provisioning (`cluster.go`, the goroutine of `CreateCluster`) -/

/-- Modelled from the spec: the constant `clusterStatusInitializing`, declared
outside the two files; the spec names the phase `Initializing`. -/
def clusterStatusInitializing : String := "Initializing"

/-- Modelled from the spec: the constant `clusterStatusCompleted`, declared
outside the two files; the spec names the phase `Completed`. -/
def clusterStatusCompleted : String := "Completed"

/-- Modelled from the spec: the constant `clusterStatusFailed`, declared
outside the two files; the spec names the phase `Failed`. -/
def clusterStatusFailed : String := "Failed"

/-- The fields of `v1Cluster.Binding` that `createClusterUser` sets. -/
structure Binding where
  Kind : String
  Name : String
  UserRef : String
  ClusterRef : String
  Certificate : String
deriving DecidableEq, Repr

/-- The collaborators of the background task and the outcome each call has:
`clusterService.Update` by the row it is given, the two cluster-client calls,
and `clusterBindingService.CreateClusterBinding`. -/
structure ProvisionEnv where
  update : ClusterReq → Option String
  createDefaultClusterRoles : Option String
  createCommonUser : String → Except String String
  createClusterBinding : Binding → Option String

/-- Embedding of `createClusterUser(client, username, clusterName)`: the
returned error, if any. -/
def createClusterUser (penv : ProvisionEnv) (username : String) (clusterName : String) :
    Option String :=
  let binding : Binding :=
    { Kind := "ClusterBinding",
      Name := Sprintf "%s-%s-cluster-binding" [clusterName, username],
      UserRef := username, ClusterRef := clusterName, Certificate := "" }
  match penv.createCommonUser username with
  | .error err => some err
  | .ok csr =>
    match penv.createClusterBinding { binding with Certificate := csr } with
    | some err => some err
    | none => none

/-- One write of the cluster status to storage: the phase and message of the
row handed to `clusterService.Create` or `clusterService.Update`, and the
error the call returned, if any. -/
structure StatusWrite where
  Phase : String
  Message : String
  err : Option String
deriving DecidableEq, Repr

/-- The status write made by handing `row` to a storage call with outcome
`err`. -/
def writeOf (row : ClusterReq) (err : Option String) : StatusWrite :=
  { Phase := row.Phase, Message := row.Message, err := err }

/-- Embedding of the goroutine started at the end of `CreateCluster`: the
status writes it makes, in order.  `req` is the request as the handler left
it and `profileName` the name of the requester. -/
def provision (penv : ProvisionEnv) (profileName : String) (req : ClusterReq) :
    List StatusWrite :=
  let req := { req with Phase := clusterStatusInitializing }
  match penv.update req with
  | some e => [writeOf req (some e)]
  | none =>
    match penv.createDefaultClusterRoles with
    | some err =>
      let req1 := { req with Phase := clusterStatusFailed, Message := err }
      [writeOf req none, writeOf req1 (penv.update req1)]
    | none =>
      match createClusterUser penv profileName req.Name with
      | some err =>
        let req1 := { req with Phase := clusterStatusFailed, Message := err }
        [writeOf req none, writeOf req1 (penv.update req1)]
      | none =>
        let req1 := { req with Phase := clusterStatusCompleted }
        [writeOf req none, writeOf req1 (penv.update req1)]

/-- The rows handed to `clusterService.Create` in a list of effects. -/
def createdRows : List Effect → List ClusterReq
  | [] => []
  | .clusterCreate row :: rest => row :: createdRows rest
  | _ :: rest => createdRows rest

/-- All status writes of one registration: the write of `clusterService.Create`
in the handler, followed, when the handler started the background task, by the
writes of that task. -/
def statusWrites (env : CreateEnv) (penv : ProvisionEnv) : List StatusWrite :=
  let run := CreateCluster env
  let saved := (createdRows run.effects).map fun row => writeOf row (env.create row)
  if Effect.spawnProvision ∈ run.effects then
    match run.data with
    | some req => saved ++ provision penv env.profileName req
    | none => saved
  else saved

/-- A registration in which every collaborator call of the handler succeeds
and the cluster allows every required permission. -/
def acceptedEnv : CreateEnv :=
  { deniedEnv with hasPermission := fun a => .ok ⟨a.Resource, a.Verb, true⟩ }

/-- A background task in which every call succeeds. -/
def smoothProvision : ProvisionEnv :=
  { update := fun _ => none, createDefaultClusterRoles := none,
    createCommonUser := fun _ => .ok "certificate", createClusterBinding := fun _ => none }

/-- A background task in which `CreateDefaultClusterRoles` fails with the
given error text and every other call succeeds. -/
def rolesFail (text : String) : ProvisionEnv :=
  { smoothProvision with createDefaultClusterRoles := some text }

/-- The cluster of `sampleGet` with one more namespace, `cut`, which answers
403 and drops the connection while the body is read. -/
def sampleGetCut : URL → Except String Response := fun u =>
  if u.Path = "/api/v1/namespaces/cut/pods" then .ok ⟨403, "", some "unexpected EOF"⟩
  else sampleGet u

/-! # Theorems -/

/-! ## Go runtime lemmas -/

theorem wrapInt_of_range (x : Int) (h1 : minInt ≤ x) (h2 : x ≤ maxInt) : wrapInt x = x := by
  unfold wrapInt; unfold minInt at h1; unfold maxInt at h2; omega

theorem goSlice_ok {α : Type} (xs : List α) (low high : Int) (h1 : 0 ≤ low) (h2 : low ≤ high)
    (h3 : high ≤ (xs.length : Int)) :
    goSlice xs low high = .ok ((xs.drop low.toNat).take (high.toNat - low.toNat)) := by
  unfold goSlice; rw [if_pos ⟨h1, h2, h3⟩]

/-! ## Pagination -/

/-- C1, as stated, at an input it does not cover: with five items,
`pageNum = 2^62 + 1` and `pageSize = 4`, both at least 1 and both Go `int`
values, the products `(pageNum-1)*pageSize` and `pageNum*pageSize` wrap to 0
and 4, so `pageFilter` returns the first four items, while the window from
index `(pageNum-1)*pageSize` is empty. -/
theorem pageFilter_window_wraps :
    (1 : Int) ≤ 4611686018427387905 ∧ (4611686018427387905 : Int) ≤ maxInt ∧ (1 : Int) ≤ 4 ∧
    decodeAs 5 "" = .ok (sampleList 5) ∧
    pageFilter (decodeAs 5) 4611686018427387905 4 ""
      = .ok (5, { sampleList 5 with Items := (sampleList 5).Items.take 4 }) ∧
    (sampleList 5).Items.take 4 ≠ [] ∧
    specWindow (sampleList 5).Items 4611686018427387905 4 = [] := by
  decide

/-- C1, amended: for a body that decodes to a list, `pageNum >= 1`,
`pageSize >= 1` and `pageNum * pageSize` within the range of a Go `int`,
`pageFilter` returns the number of decoded items as total and the items from
index `(pageNum-1)*pageSize` up to `min(pageNum*pageSize, n)`, which is the
empty list when `(pageNum-1)*pageSize >= n`. -/
theorem pageFilter_window (unmarshal : String → Except String K8sObj) (resp : String)
    (datas : K8sObj) (pageNum pageSize : Int)
    (hdec : unmarshal resp = .ok datas) (hnum : 1 ≤ pageNum) (hsize : 1 ≤ pageSize)
    (hfit : pageNum * pageSize ≤ maxInt) :
    pageFilter unmarshal pageNum pageSize resp
        = .ok ((datas.Items.length : Int),
            { datas with Items := specWindow datas.Items pageNum pageSize })
      ∧ ((datas.Items.length : Int) ≤ (pageNum - 1) * pageSize →
          specWindow datas.Items pageNum pageSize = []) := by
  have hlow0 : 0 ≤ (pageNum - 1) * pageSize := by nlinarith
  have hle : (pageNum - 1) * pageSize ≤ pageNum * pageSize := by nlinarith
  have hnle : pageNum ≤ pageNum * pageSize := by nlinarith
  have hmax : maxInt = 9223372036854775807 := rfl
  have hmin : minInt = -9223372036854775808 := rfl
  have w1 : wrapInt (pageNum - 1) = pageNum - 1 := wrapInt_of_range _ (by omega) (by omega)
  have w2 : wrapInt ((pageNum - 1) * pageSize) = (pageNum - 1) * pageSize :=
    wrapInt_of_range _ (by omega) (by omega)
  have w3 : wrapInt (pageNum * pageSize) = pageNum * pageSize :=
    wrapInt_of_range _ (by omega) (by omega)
  have hempty : (datas.Items.length : Int) ≤ (pageNum - 1) * pageSize →
      specWindow datas.Items pageNum pageSize = [] := by
    intro h
    unfold specWindow
    rw [List.drop_of_length_le (by omega)]
    simp
  refine ⟨?_, hempty⟩
  unfold pageFilter
  simp only [hdec, w1, w2, w3]
  by_cases hA : (pageNum - 1) * pageSize ≥ (datas.Items.length : Int)
  · rw [if_pos hA, hempty hA]
  · rw [if_neg hA]
    by_cases hB : pageNum * pageSize < (datas.Items.length : Int)
    · rw [if_pos hB, goSlice_ok _ _ _ hlow0 hle (by omega)]
      simp only [specWindow]
      rw [min_eq_left (by omega)]
    · rw [if_neg hB, goSlice_ok _ _ _ hlow0 (by omega) (le_refl _)]
      simp only [specWindow]
      rw [min_eq_right (by omega)]

/-- The amended C1 at the two inputs of the specification: ten items with
`pageNum = 2`, `pageSize = 4` give `records[4:8]` and total 10; `pageNum = 5`,
`pageSize = 4` give no items and total 10. -/
theorem pageFilter_window_witness :
    (pageFilter (decodeAs 10) 2 4 ""
        = .ok (((sampleList 10).Items.length : Int),
            { sampleList 10 with Items := specWindow (sampleList 10).Items 2 4 })
      ∧ (((sampleList 10).Items.length : Int) ≤ (2 - 1) * 4 →
          specWindow (sampleList 10).Items 2 4 = []))
    ∧ specWindow (sampleList 10).Items 2 4
        = ((sampleList 10).Items.drop 4).take 4
    ∧ ((sampleList 10).Items.length : Int) = 10
    ∧ pageFilter (decodeAs 10) 5 4 "" = .ok (10, { sampleList 10 with Items := [] }) :=
  ⟨pageFilter_window (decodeAs 10) "" (sampleList 10) 2 4 rfl (by decide) (by decide) (by decide),
    by decide, by decide, by decide⟩

/-- C2, at inputs the handler can pass: on a body of one item, `pageNum = 0`
with `pageSize = 1` asks for `Items[-1:0]`; on a body of three items,
`pageNum = -1` with `pageSize = 5` asks for `Items[-10:-5]`, `pageNum = 2`
with `pageSize = -1` asks for `Items[-1:-2]`, and `pageNum = 0`, the zero
value left for a key that is not set, with `pageSize = 5` asks for
`Items[-5:0]`.  Each is a slice expression out of range: `pageFilter` panics
and returns no result. -/
theorem pageFilter_panics_on_nonpositive_page :
    pageFilter (decodeAs 1) 0 1 "" = .error (.panic "slice bounds out of range") ∧
    pageFilter (decodeAs 3) (-1) 5 "" = .error (.panic "slice bounds out of range") ∧
    pageFilter (decodeAs 3) 2 (-1) "" = .error (.panic "slice bounds out of range") ∧
    pageFilter (decodeAs 3) 0 5 "" = .error (.panic "slice bounds out of range") := by
  decide

/-! ## Admission preflight -/

theorem aggregate_identifier (events : List (Except String PermissionCheckResult)) :
    (aggregate events).1 = "" ∨ (aggregate events).1 = "%!s(MISSING)-%!s(MISSING)" := by
  induction events with
  | nil => left; rfl
  | cons e rest ih =>
    cases e with
    | error err => left; rfl
    | ok b =>
      unfold aggregate
      by_cases hb : b.Allowed = true
      · simpa [hb] using ih
      · right
        have hb2 : b.Allowed = false := by simpa using hb
        have hs : Sprintf "%s-%s" [] = "%!s(MISSING)-%!s(MISSING)" := by decide
        simp [hb2, hs]

/-- C3, on the code: the identifier `checkRequiredPermissions` returns is the
empty string or the text `%!s(MISSING)-%!s(MISSING)`, whatever check was
denied, because `fmt.Sprintf("%s-%s")` is called without operands; for a
cluster that denies `get` on `namespaces` it is that text, not
`namespaces-get`. -/
theorem checkRequiredPermissions_identifier_is_placeholder :
    (∀ (hasPermission : ResourceAttributes → Except String PermissionCheckResult)
        (schedule : List ResourceAttributes → List ResourceAttributes)
        (required : List (String × List String)),
        (checkRequiredPermissions hasPermission schedule required).1 = "" ∨
        (checkRequiredPermissions hasPermission schedule required).1
          = "%!s(MISSING)-%!s(MISSING)") ∧
    checkRequiredPermissions (denyOnly "namespaces" "get") id requiredPermissions
      = ("%!s(MISSING)-%!s(MISSING)", none) ∧
    "%!s(MISSING)-%!s(MISSING)" ≠ "namespaces" ++ "-" ++ "get" := by
  refine ⟨fun hasPermission schedule required => aggregate_identifier _, by decide, by decide⟩

/-! ## Registration -/

/-- C4, on the code: in a registration whose preflight reports a denial, the
cluster service's `Create` has run inside the open transaction before the
preflight, and the handler returns with neither a rollback nor a commit. -/
theorem CreateCluster_creates_before_preflight :
    (CreateCluster deniedEnv).effects
      = [ .txBegin,
          .clusterCreate { sampleReq with PrivateKey := "key", Version := "v1.19.0",
                                          CreatedBy := "admin", Phase := "Saved" },
          .preflight "%!s(MISSING)-%!s(MISSING)" none ] ∧
    (CreateCluster deniedEnv).reply.StatusCode = some 500 := by
  decide

/-! ## Fan-out merge -/

theorem foldl_absorb_Items (l : List NamespaceResourceContainer) (m : NamespaceResourceContainer) :
    (l.foldl absorb m).Items = m.Items ++ (l.map fun nc => nc.Items).flatten := by
  induction l generalizing m with
  | nil => simp
  | cons nc rest ih => simp [List.foldl_cons, ih, absorb, List.append_assoc]

theorem foldl_absorb_meta (l : List NamespaceResourceContainer) (m : NamespaceResourceContainer)
    (h : l ≠ []) :
    (l.foldl absorb m).TypeMeta = (l.getLast h).TypeMeta ∧
    (l.foldl absorb m).ListMeta = (l.getLast h).ListMeta := by
  induction l generalizing m with
  | nil => exact absurd rfl h
  | cons nc rest ih =>
    cases rest with
    | nil => simp [absorb]
    | cons nc2 rest2 =>
      have := ih (absorb m nc) (List.cons_ne_nil _ _)
      simpa [List.foldl_cons, List.getLast_cons] using this

theorem decodedOf_of_ok (unmarshal : String → Except String NamespaceResourceContainer)
    (r : Response) (nc : NamespaceResourceContainer)
    (h1 : r.ReadErr = none) (h2 : r.StatusCode = 200) (h3 : unmarshal r.Body = .ok nc) :
    decodedOf unmarshal r = some nc := by
  simp [decodedOf, h1, h2, h3]

theorem decodedOf_of_forbidden (unmarshal : String → Except String NamespaceResourceContainer)
    (r : Response) (h : r.StatusCode = 403) : decodedOf unmarshal r = none := by
  simp [decodedOf, h]

theorem mergeLoop_tolerated (unmarshal : String → Except String NamespaceResourceContainer)
    (rs : List Response) (st : MergeState) (h : ∀ r ∈ rs, Tolerated unmarshal r) :
    mergeLoop unmarshal st rs
      = .ok ⟨(successes unmarshal rs).foldl absorb st.mergedContainer,
             st.forbidden + ((forbiddenBodies rs).length : Int),
             st.forbiddenMessage ++ forbiddenBodies rs⟩ := by
  induction rs generalizing st with
  | nil => simp [mergeLoop, successes, forbiddenBodies]
  | cons r rest ih =>
    have hr := h r (List.mem_cons_self _ _)
    have hrest : ∀ x ∈ rest, Tolerated unmarshal x := fun x hx => h x (List.mem_cons_of_mem _ hx)
    obtain ⟨hread, hcase⟩ := hr
    rcases hcase with ⟨h200, nc, hnc⟩ | h403
    · have hstep : mergeStep unmarshal st r = .ok { st with mergedContainer := absorb st.mergedContainer nc } := by
        simp [mergeStep, hread, h200, hnc, absorb]
      have hd := decodedOf_of_ok unmarshal r nc hread h200 hnc
      have hne : ¬ r.StatusCode = 403 := by omega
      simp only [mergeLoop, hstep, ih _ hrest]
      simp [successes, forbiddenBodies, List.filterMap_cons, hd, List.filter_cons, hne]
    · have hstep : mergeStep unmarshal st r
          = .ok { st with forbidden := st.forbidden + 1,
                          forbiddenMessage := st.forbiddenMessage ++ [r.Body] } := by
        simp [mergeStep, hread, h403]
      have hd := decodedOf_of_forbidden unmarshal r h403
      simp only [mergeLoop, hstep, ih _ hrest]
      simp [successes, forbiddenBodies, List.filterMap_cons, hd, List.filter_cons, h403]
      omega

theorem mergeStep_ok_tolerated (unmarshal : String → Except String NamespaceResourceContainer)
    (st st1 : MergeState) (r : Response) (h : mergeStep unmarshal st r = .ok st1) :
    Tolerated unmarshal r := by
  unfold mergeStep at h
  cases hread : r.ReadErr with
  | some err => simp [hread] at h
  | none =>
    refine ⟨hread, ?_⟩
    simp only [hread] at h
    by_cases h200 : r.StatusCode = 200
    · left
      refine ⟨h200, ?_⟩
      cases hu : unmarshal r.Body with
      | error err => simp [h200, hu] at h
      | ok nc => exact ⟨nc, rfl⟩
    · right
      by_contra h403
      simp [h200, h403] at h

theorem mergeLoop_ok_tolerated (unmarshal : String → Except String NamespaceResourceContainer)
    (rs : List Response) (st st1 : MergeState) (h : mergeLoop unmarshal st rs = .ok st1) :
    ∀ r ∈ rs, Tolerated unmarshal r := by
  induction rs generalizing st with
  | nil => intro r hr; cases hr
  | cons r rest ih =>
    unfold mergeLoop at h
    cases hs : mergeStep unmarshal st r with
    | error f => simp [hs] at h
    | ok st2 =>
      simp only [hs] at h
      intro x hx
      rcases List.mem_cons.mp hx with rfl | hx
      · exact mergeStep_ok_tolerated unmarshal st st2 x hs
      · exact ih st2 h x hx

theorem mergeResponses_ok_tolerated (unmarshal : String → Except String NamespaceResourceContainer)
    (n : Int) (rs : List Response) (m : NamespaceResourceContainer)
    (h : mergeResponses unmarshal n rs = .ok m) : ∀ r ∈ rs, Tolerated unmarshal r := by
  unfold mergeResponses at h
  cases hl : mergeLoop unmarshal ⟨NamespaceResourceContainer.zero, 0, []⟩ rs with
  | error f => simp [hl] at h
  | ok st => exact mergeLoop_ok_tolerated unmarshal rs _ st hl

theorem mergeResponses_tolerated (unmarshal : String → Except String NamespaceResourceContainer)
    (n : Int) (rs : List Response) (h : ∀ r ∈ rs, Tolerated unmarshal r) :
    mergeResponses unmarshal n rs
      = if n = 1 ∧ ((forbiddenBodies rs).length : Int) = 1 then
          .error (.error (joinEmpty (forbiddenBodies rs)))
        else
          .ok ((successes unmarshal rs).foldl absorb NamespaceResourceContainer.zero) := by
  unfold mergeResponses
  rw [mergeLoop_tolerated unmarshal rs _ h]
  simp

theorem successes_decoded (unmarshal : String → Except String NamespaceResourceContainer)
    (rs : List Response)
    (h : ∀ r ∈ rs, r.ReadErr = none ∧ r.StatusCode = 200 ∧ ∃ nc, unmarshal r.Body = .ok nc) :
    List.Forall₂ (fun r nc => unmarshal r.Body = .ok nc) rs (successes unmarshal rs) := by
  induction rs with
  | nil => simp [successes]
  | cons r rest ih =>
    obtain ⟨h1, h2, nc, h3⟩ := h r (List.mem_cons_self _ _)
    have hd := decodedOf_of_ok unmarshal r nc h1 h2 h3
    have := ih fun x hx => h x (List.mem_cons_of_mem _ hx)
    simp only [successes, List.filterMap_cons, hd]
    exact List.Forall₂.cons h3 this

theorem joinEmpty_singleton (b : String) : joinEmpty [b] = b := by
  simp [joinEmpty]

/-- C5: when every collected response was read, has status 200 and a body
that decodes, the merge returns a container whose items are the
concatenation of the decoded items of the responses in order, so their number
is the sum of the per-response counts (`len(responses) * k` when each
response has `k` items), and with at least one response the type and list
metadata of the result are those of one of the decoded responses. -/
theorem mergeResponses_concat (unmarshal : String → Except String NamespaceResourceContainer)
    (n : Int) (responses : List Response)
    (h : ∀ r ∈ responses,
      r.ReadErr = none ∧ r.StatusCode = 200 ∧ ∃ nc, unmarshal r.Body = .ok nc) :
    ∃ m decoded,
      mergeResponses unmarshal n responses = .ok m ∧
      List.Forall₂ (fun r nc => unmarshal r.Body = .ok nc) responses decoded ∧
      m.Items = (decoded.map fun nc => nc.Items).flatten ∧
      m.Items.length = (decoded.map fun nc => nc.Items.length).sum ∧
      (∀ k, (∀ nc ∈ decoded, nc.Items.length = k) → m.Items.length = responses.length * k) ∧
      (responses ≠ [] → ∃ nc ∈ decoded, m.TypeMeta = nc.TypeMeta ∧ m.ListMeta = nc.ListMeta) := by
  have htol : ∀ r ∈ responses, Tolerated unmarshal r := fun r hr =>
    ⟨(h r hr).1, Or.inl (h r hr).2⟩
  have hnone : forbiddenBodies responses = [] := by
    simp only [forbiddenBodies, List.map_eq_nil_iff, List.filter_eq_nil_iff]
    intro r hr
    have := (h r hr).2.1
    simp [this]
  have hF := successes_decoded unmarshal responses h
  have hlen : (successes unmarshal responses).length = responses.length := hF.length_eq.symm
  have hItems : ((successes unmarshal responses).foldl absorb NamespaceResourceContainer.zero).Items
      = ((successes unmarshal responses).map fun nc => nc.Items).flatten := by
    rw [foldl_absorb_Items]; simp [NamespaceResourceContainer.zero]
  have hsum : ((successes unmarshal responses).foldl absorb NamespaceResourceContainer.zero).Items.length
      = ((successes unmarshal responses).map fun nc => nc.Items.length).sum := by
    rw [hItems, List.length_flatten, List.map_map]; rfl
  refine ⟨_, successes unmarshal responses, ?_, hF, hItems, hsum, ?_, ?_⟩
  · rw [mergeResponses_tolerated unmarshal n responses htol, hnone]
    simp
  · intro k hk
    rw [hsum, ← hlen]
    have : ((successes unmarshal responses).map fun nc => nc.Items.length)
        = List.replicate (successes unmarshal responses).length k := by
      rw [List.eq_replicate_iff]
      refine ⟨by simp, ?_⟩
      intro b hb
      obtain ⟨nc, hnc, rfl⟩ := List.mem_map.mp hb
      exact hk nc hnc
    rw [this, List.sum_replicate]
    simp
  · intro hne
    have hne2 : successes unmarshal responses ≠ [] := by
      intro hnil
      rw [hnil] at hlen
      exact hne (List.length_eq_zero.mp hlen.symm)
    exact ⟨_, List.getLast_mem hne2, foldl_absorb_meta _ _ hne2⟩

/-- C5 at three namespaces answering 200 with two items each: the merge
returns six items. -/
theorem mergeResponses_concat_witness :
    (∀ r ∈ [(⟨200, "A", none⟩ : Response), ⟨200, "B", none⟩, ⟨200, "C", none⟩],
      r.ReadErr = none ∧ r.StatusCode = 200 ∧ ∃ nc, sampleUnmarshal r.Body = .ok nc) ∧
    (∃ m decoded,
      mergeResponses sampleUnmarshal 3 [⟨200, "A", none⟩, ⟨200, "B", none⟩, ⟨200, "C", none⟩]
        = .ok m ∧
      List.Forall₂ (fun r nc => sampleUnmarshal r.Body = .ok nc)
        [(⟨200, "A", none⟩ : Response), ⟨200, "B", none⟩, ⟨200, "C", none⟩] decoded ∧
      m.Items = (decoded.map fun nc => nc.Items).flatten ∧
      m.Items.length = (decoded.map fun nc => nc.Items.length).sum ∧
      (∀ k, (∀ nc ∈ decoded, nc.Items.length = k) →
        m.Items.length
          = [(⟨200, "A", none⟩ : Response), ⟨200, "B", none⟩, ⟨200, "C", none⟩].length * k) ∧
      ([(⟨200, "A", none⟩ : Response), ⟨200, "B", none⟩, ⟨200, "C", none⟩] ≠ [] →
        ∃ nc ∈ decoded, m.TypeMeta = nc.TypeMeta ∧ m.ListMeta = nc.ListMeta)) ∧
    (mergeResponses sampleUnmarshal 3
        [⟨200, "A", none⟩, ⟨200, "B", none⟩, ⟨200, "C", none⟩]).map (fun m => m.Items.length)
      = .ok 6 := by
  have h : ∀ r ∈ [(⟨200, "A", none⟩ : Response), ⟨200, "B", none⟩, ⟨200, "C", none⟩],
      r.ReadErr = none ∧ r.StatusCode = 200 ∧ ∃ nc, sampleUnmarshal r.Body = .ok nc := by
    intro r hr
    simp only [List.mem_cons, List.mem_singleton, List.not_mem_nil, or_false] at hr
    rcases hr with rfl | rfl | rfl
    · exact ⟨rfl, rfl, _, rfl⟩
    · exact ⟨rfl, rfl, _, rfl⟩
    · exact ⟨rfl, rfl, _, rfl⟩
  exact ⟨h, mergeResponses_concat sampleUnmarshal 3 _ h, by decide⟩

/-- C6, as stated, at a fan-out over the namespaces `a` and `b` whose
responses are both collected and merged in that order: both are successful,
and the list metadata of the result is that of the second response, not of
the first. -/
theorem fetch_metadata_not_first :
    (collectResponses sampleGet sampleApiUrl ["a", "b"]).1
      = [⟨200, "A", none⟩, ⟨200, "B", none⟩] ∧
    successes sampleUnmarshal [⟨200, "A", none⟩, ⟨200, "B", none⟩]
      = [sampleContainer "101" ["a1", "a2"], sampleContainer "102" ["b1", "b2"]] ∧
    (fetchMultiNamespaceResource sampleGet sampleUnmarshal id ["a", "b"] sampleApiUrl).map
        (fun m => m.ListMeta)
      = .ok (sampleContainer "102" ["b1", "b2"]).ListMeta ∧
    (mergeSlice sampleUnmarshal 2 [some ⟨200, "A", none⟩, some ⟨200, "B", none⟩]).map
        (fun m => m.ListMeta)
      = .ok (sampleContainer "102" ["b1", "b2"]).ListMeta ∧
    (sampleContainer "102" ["b1", "b2"]).ListMeta
      ≠ (sampleContainer "101" ["a1", "a2"]).ListMeta := by
  decide

theorem forbiddenBodies_singleton (r : Response) :
    forbiddenBodies [r] = if r.StatusCode = 403 then [r.Body] else [] := by
  by_cases h : r.StatusCode = 403 <;> simp [forbiddenBodies, List.filter_cons, h]

/-- C8, on the code: a per-namespace call that fails in transport is
appended to `es`, which is never read.  A fan-out over the single namespace
`gone`, whose call fails, returns an empty merged result without error; a
fan-out over `a` and `gone` returns the items of `a` alone. -/
theorem fetch_drops_transport_errors :
    sampleGet (namespaceUrl sampleApiUrl "gone")
      = .error "dial tcp 10.0.0.1:6443: connect: connection refused" ∧
    collectResponses sampleGet sampleApiUrl ["gone"]
      = ([], ["dial tcp 10.0.0.1:6443: connect: connection refused"]) ∧
    fetchMultiNamespaceResource sampleGet sampleUnmarshal id ["gone"] sampleApiUrl
      = .ok NamespaceResourceContainer.zero ∧
    fetchMultiNamespaceResource sampleGet sampleUnmarshal id ["a", "gone"] sampleApiUrl
      = .ok (sampleContainer "101" ["a1", "a2"]) := by
  decide

theorem mergeLoop_bad_status (unmarshal : String → Except String NamespaceResourceContainer)
    (rs : List Response) (st : MergeState)
    (h : ∃ r ∈ rs, r.StatusCode ≠ 200 ∧ r.StatusCode ≠ 403) :
    ∃ f, mergeLoop unmarshal st rs = .error f := by
  cases hl : mergeLoop unmarshal st rs with
  | error f => exact ⟨f, rfl⟩
  | ok st1 =>
    obtain ⟨r, hr, h200, h403⟩ := h
    have := mergeLoop_ok_tolerated unmarshal rs st st1 hl r hr
    rcases this.2 with ⟨h, _⟩ | h
    · exact absurd h h200
    · exact absurd h h403

/-- The part of C8 the code keeps: a collected response with a status other
than 200 and 403 makes `fetchMultiNamespaceResource` return an error. -/
theorem fetch_aborts_on_bad_status (get : URL → Except String Response)
    (unmarshal : String → Except String NamespaceResourceContainer)
    (completion : List String → List String) (namespaces : List String) (apiUrl : URL)
    (h : ∃ r ∈ (collectResponses get apiUrl (completion namespaces)).1,
      r.StatusCode ≠ 200 ∧ r.StatusCode ≠ 403) :
    ∃ f, fetchMultiNamespaceResource get unmarshal completion namespaces apiUrl = .error f := by
  unfold fetchMultiNamespaceResource mergeResponses
  obtain ⟨f, hf⟩ := mergeLoop_bad_status unmarshal _ ⟨NamespaceResourceContainer.zero, 0, []⟩ h
  exact ⟨f, by simp [hf]⟩

/-! ## The gateway handler -/

/-- C9, on the code: with pagination entries on the call and a downstream
403 whose body decodes, the handler writes a page and never sets a status
code, so the caller receives 200; the same call without pagination entries
is answered 500. -/
theorem paged_forbidden_is_answered_200 :
    (KubernetesAPIProxy (sampleProxyEnv ⟨403, "status-forbidden", none⟩)
        (sampleCall "" ⟨1, none⟩ ⟨10, none⟩)).reply
      = .ok { StatusCode := none, Message := none,
              Written := some (.page 0
                { Kind := "Status", ApiVersion := "v1", Metadata := "null", Items := [] }) } ∧
    (KubernetesAPIProxy (sampleProxyEnv ⟨403, "status-forbidden", none⟩)
        (sampleCall "" ⟨1, none⟩ ⟨10, none⟩)).reply.map Reply.status = .ok 200 ∧
    (KubernetesAPIProxy (sampleProxyEnv ⟨403, "status-forbidden", none⟩)
        (sampleCall "" absent absent)).reply.map Reply.status = .ok 500 := by
  decide

/-- The part of C9 the code keeps: without pagination entries the reply
carries the downstream body unchanged and the downstream status, a 403
replaced by 500. -/
theorem respond_unpaged (env : ProxyEnv) (call : ProxyCall) (resp : Response)
    (h1 : call.pageNum.err ≠ none) (h2 : call.pageSize.err ≠ none) :
    respond env call resp
      = .ok { StatusCode := some (if resp.StatusCode = 403 then 500 else resp.StatusCode),
              Message := some (.str resp.Body), Written := some (.raw resp.Body) } := by
  unfold respond
  simp [h1, h2]

/-! ## Paths -/

theorem splitSlash_ne_nil (s : List Char) : splitSlash s ≠ [] := by
  induction s with
  | nil => simp [splitSlash]
  | cons c cs ih =>
    unfold splitSlash
    by_cases hc : c = '/'
    · simp [hc]
    · simp only [hc, if_false]
      split <;> simp

theorem splitSlash_cons_ne (c : Char) (cs h : List Char) (t : List (List Char)) (hc : c ≠ '/')
    (hs : splitSlash cs = h :: t) : splitSlash (c :: cs) = (c :: h) :: t := by
  rw [splitSlash, if_neg hc, hs]

theorem splitSlash_no_slash (r : List Char) (h : '/' ∉ r) : splitSlash r = [r] := by
  induction r with
  | nil => rfl
  | cons c cs ih =>
    have hc : c ≠ '/' := fun e => h (e ▸ List.mem_cons_self _ _)
    have hcs : '/' ∉ cs := fun e => h (List.mem_cons_of_mem _ e)
    exact splitSlash_cons_ne c cs cs [] hc (ih hcs)

theorem splitSlash_append_slash (a b : List Char) :
    splitSlash (a ++ '/' :: b) = splitSlash a ++ splitSlash b := by
  induction a with
  | nil => simp [splitSlash]
  | cons c cs ih =>
    by_cases hc : c = '/'
    · subst hc
      simp [splitSlash, ih]
    · obtain ⟨h, t, ht⟩ := List.exists_cons_of_ne_nil (splitSlash_ne_nil cs)
      rw [List.cons_append, splitSlash_cons_ne c _ h (t ++ splitSlash b) hc (by rw [ih, ht]; rfl),
        splitSlash_cons_ne c cs h t hc ht]
      rfl

theorem joinSlash_append (l m : List (List Char)) (hl : l ≠ []) (hm : m ≠ []) :
    joinSlash (l ++ m) = joinSlash l ++ '/' :: joinSlash m := by
  induction l with
  | nil => exact absurd rfl hl
  | cons s rest ih =>
    cases rest with
    | nil =>
      obtain ⟨x, xs, rfl⟩ := List.exists_cons_of_ne_nil hm
      simp [joinSlash]
    | cons t rest2 =>
      have := ih (List.cons_ne_nil _ _)
      simp only [List.cons_append] at this ⊢
      simp [joinSlash, this]

theorem joinSlash_splitSlash (s : List Char) : joinSlash (splitSlash s) = s := by
  induction s with
  | nil => rfl
  | cons c cs ih =>
    obtain ⟨h, t, ht⟩ := List.exists_cons_of_ne_nil (splitSlash_ne_nil cs)
    by_cases hc : c = '/'
    · subst hc
      rw [splitSlash, if_pos rfl, ht, joinSlash, ← ht, ih]
      rfl
    · rw [splitSlash_cons_ne c cs h t hc ht]
      rw [ht] at ih
      cases t with
      | nil => simp only [joinSlash] at ih ⊢; rw [ih]
      | cons t1 t2 => simp only [joinSlash] at ih ⊢; rw [← ih]; rfl

theorem addUrlNamespace_data (pre r : List Char) (ns : String) (hr : '/' ∉ r) :
    (addUrlNamespace (String.mk (pre ++ '/' :: r)) ns).data
      = pre ++ '/' :: ("namespaces".data ++ '/' :: (ns.data ++ '/' :: r)) := by
  have hsplit : splitSlash (pre ++ '/' :: r) = splitSlash pre ++ [r] := by
    rw [splitSlash_append_slash, splitSlash_no_slash r hr]
  unfold addUrlNamespace
  simp only [hsplit, List.getLastD_concat, List.dropLast_concat]
  rw [joinSlash_append _ _ (splitSlash_ne_nil pre) (by simp), joinSlash_splitSlash]
  simp [joinSlash]

theorem route_forwarded (env : ProxyEnv) (call : ProxyCall) (namespaced canVisitAll : Bool)
    (apiUrl : URL) (req : Request)
    (h : (route env call namespaced canVisitAll apiUrl).forwarded = some req) :
    req.Method = call.method ∧
    req.Url.Path =
      if call.method = "GET" ∧ call.nsParam ≠ "" ∧ namespaced = true then
        addUrlNamespace apiUrl.Path call.nsParam
      else apiUrl.Path := by
  unfold route at h
  split at h
  · split at h
    · cases h
    · split at h <;> cases h
  · simp only at h
    split at h
    · cases h
    · have hreq : req = Request.mk call.method
          (if "GET" = call.method ∧ namespaced = true ∧ call.nsParam ≠ "" then
              { apiUrl with Path := addUrlNamespace apiUrl.Path call.nsParam }
            else apiUrl)
          (if call.method = "PATCH" then some "application/merge-patch+json" else none) := by
        split at h <;> (simp only [Option.some.injEq] at h; exact h.symm)
      subst hreq
      refine ⟨rfl, ?_⟩
      by_cases hc : "GET" = call.method ∧ namespaced = true ∧ call.nsParam ≠ ""
      · have hc2 : call.method = "GET" ∧ call.nsParam ≠ "" ∧ namespaced = true :=
          ⟨hc.1.symm, hc.2.2, hc.2.1⟩
        simp only [if_pos hc, if_pos hc2]
      · have hc2 : ¬ (call.method = "GET" ∧ call.nsParam ≠ "" ∧ namespaced = true) :=
          fun x => hc ⟨x.1.symm, x.2.2, x.2.1⟩
        simp only [if_neg hc, if_neg hc2]

/-- C10: the request of a single forwarded call has the method of the inbound
call, and its path is `addUrlNamespace` of the parsed path and the namespace
parameter when the method is `GET`, the parameter is non-empty and the
resource is namespace-scoped, and the parsed path unchanged otherwise.  For a
path `pre/r` with no `/` in `r`, `addUrlNamespace` returns
`pre/namespaces/ns/r`, and `parseResourceName` reads `r` from both paths. -/
theorem forwarded_path (env : ProxyEnv) (call : ProxyCall) (req : Request)
    (h : (KubernetesAPIProxy env call).forwarded = some req) :
    (∃ c resourceName namespaced apiUrl,
      env.clusterGet call.name = .ok c ∧
      parseResourceName (ensureProxyPathValid call.p) = .ok resourceName ∧
      env.isNamespacedResource resourceName = .ok namespaced ∧
      env.urlParse (Sprintf "%s%s" [c.ApiServer, ensureProxyPathValid call.p]) = .ok apiUrl ∧
      req.Method = call.method ∧
      req.Url.Path =
        if call.method = "GET" ∧ call.nsParam ≠ "" ∧ namespaced = true then
          addUrlNamespace apiUrl.Path call.nsParam
        else apiUrl.Path) ∧
    (∀ pre r ns : String, '/' ∉ r.data →
      addUrlNamespace (pre ++ "/" ++ r) ns = pre ++ "/namespaces/" ++ ns ++ "/" ++ r ∧
      parseResourceName (pre ++ "/" ++ r) = .ok r ∧
      parseResourceName (addUrlNamespace (pre ++ "/" ++ r) ns) = .ok r) ∧
    addUrlNamespace "/api/v1/pods" "ns" = "/api/v1/namespaces/ns/pods" := by
  refine ⟨?_, ?_, by decide⟩
  · unfold KubernetesAPIProxy at h
    simp only at h
    cases hc : env.clusterGet call.name with
    | error err => simp [hc] at h
    | ok c =>
      simp only [hc] at h
      cases ht : generateTLSTransport env c call.profileName with
      | error err => simp [ht] at h
      | ok u =>
        simp only [ht] at h
        cases hp : parseResourceName (ensureProxyPathValid call.p) with
        | error err => simp [hp] at h
        | ok resourceName =>
          simp only [hp] at h
          cases hn : env.isNamespacedResource resourceName with
          | error err => simp [hn] at h
          | ok namespaced =>
            simp only [hn] at h
            cases hv : env.canVisitAllNamespace call.profileName with
            | error err => simp [hv] at h
            | ok canVisitAll =>
              simp only [hv] at h
              cases hu : env.urlParse
                  (Sprintf "%s%s" [c.ApiServer, ensureProxyPathValid call.p]) with
              | error err => simp [hu] at h
              | ok apiUrl =>
                simp only [hu] at h
                have := route_forwarded env call namespaced canVisitAll _ req h
                refine ⟨c, resourceName, namespaced, apiUrl, ?_, ?_, ?_, ?_, this⟩ <;>
                  first | rfl | assumption
  · intro pre r ns hr
    have hdata : (pre ++ "/" ++ r).data = pre.data ++ '/' :: r.data := by
      simp [String.data_append]
    have hmk : pre ++ "/" ++ r = String.mk (pre.data ++ '/' :: r.data) := by
      rw [← hdata]
    have hadd : addUrlNamespace (pre ++ "/" ++ r) ns = pre ++ "/namespaces/" ++ ns ++ "/" ++ r := by
      apply String.ext
      rw [hmk, addUrlNamespace_data pre.data r.data ns hr]
      simp [String.data_append]
    have hparse : ∀ a : List Char,
        parseResourceName (String.mk (a ++ '/' :: r.data)) = .ok r := by
      intro a
      have hsplit : splitSlash (a ++ '/' :: r.data) = splitSlash a ++ [r.data] := by
        rw [splitSlash_append_slash, splitSlash_no_slash r.data hr]
      unfold parseResourceName
      simp [hsplit]
    refine ⟨hadd, ?_, ?_⟩
    · rw [hmk]; exact hparse _
    · rw [hadd]
      have : pre ++ "/namespaces/" ++ ns ++ "/" ++ r
          = String.mk ((pre ++ "/namespaces/" ++ ns).data ++ '/' :: r.data) := by
        apply String.ext
        simp [String.data_append]
      rw [this]; exact hparse _

/-- C10 at a `GET` of `api/v1/pods` with the namespace parameter
`kube-system`: the forwarded path is `/api/v1/namespaces/kube-system/pods`. -/
theorem forwarded_path_witness :
    (KubernetesAPIProxy (sampleProxyEnv ⟨200, "pod-list", none⟩)
        (sampleCall "kube-system" absent absent)).forwarded
      = some { Method := "GET",
               Url := { Scheme := "https", Host := "10.0.0.1:6443",
                        Path := "/api/v1/namespaces/kube-system/pods", RawQuery := "" },
               ContentType := none } ∧
    addUrlNamespace ("/api/v1" ++ "/" ++ "pods") "kube-system"
      = "/api/v1" ++ "/namespaces/" ++ "kube-system" ++ "/" ++ "pods" ∧
    parseResourceName (addUrlNamespace ("/api/v1" ++ "/" ++ "pods") "kube-system") = .ok "pods" :=
  have h : (KubernetesAPIProxy (sampleProxyEnv ⟨200, "pod-list", none⟩)
        (sampleCall "kube-system" absent absent)).forwarded
      = some { Method := "GET",
               Url := { Scheme := "https", Host := "10.0.0.1:6443",
                        Path := "/api/v1/namespaces/kube-system/pods", RawQuery := "" },
               ContentType := none } := by decide
  have key := (forwarded_path _ _ _ h).2.1 "/api/v1" "pods" "kube-system" (by decide)
  ⟨h, key.1, key.2.2⟩

/-! ## Lifecycle phases -/

theorem register_rows (env : CreateEnv) (req : ClusterReq) :
    (createdRows (register env req).effects = [] ∧
        Effect.spawnProvision ∉ (register env req).effects) ∨
    (createdRows (register env req).effects = [{ req with Phase := clusterStatusSaved }] ∧
      (Effect.spawnProvision ∈ (register env req).effects →
        env.create { req with Phase := clusterStatusSaved } = none ∧
        (register env req).data = some { req with Phase := clusterStatusSaved })) := by
  unfold register
  cases hb : env.dbBegin with
  | some err => left; simp [createdRows]
  | none =>
    right
    try simp only []
    cases hc : env.create { req with Phase := clusterStatusSaved } with
    | some err => simp [createdRows]
    | none =>
      try simp only []
      split
      · simp [createdRows]
      · split
        · simp [createdRows]
        · split <;> simp [createdRows]

theorem CreateCluster_rows (env : CreateEnv) :
    (createdRows (CreateCluster env).effects = [] ∧
        Effect.spawnProvision ∉ (CreateCluster env).effects) ∨
    (∃ row, row.Phase = clusterStatusSaved ∧
      createdRows (CreateCluster env).effects = [row] ∧
      (Effect.spawnProvision ∈ (CreateCluster env).effects →
        env.create row = none ∧ (CreateCluster env).data = some row)) := by
  have key : ∀ req, (createdRows (register env req).effects = [] ∧
        Effect.spawnProvision ∉ (register env req).effects) ∨
      (∃ row, row.Phase = clusterStatusSaved ∧
        createdRows (register env req).effects = [row] ∧
        (Effect.spawnProvision ∈ (register env req).effects →
          env.create row = none ∧ (register env req).data = some row)) := by
    intro req
    rcases register_rows env req with h | h
    · exact Or.inl h
    · exact Or.inr ⟨_, rfl, h⟩
  unfold CreateCluster
  cases h1 : env.readJSON with
  | error err => left; simp [createdRows]
  | ok req =>
    cases h2 : env.generatePrivateKey with
    | error err => left; simp [createdRows]
    | ok privateKey =>
      cases h3 : env.ping with
      | some err => left; simp [createdRows]
      | none =>
        cases h4 : env.config with
        | error err =>
          simp only []
          split_ifs <;> first | exact key _ | (left; simp [createdRows])
        | ok host =>
          simp only []
          split_ifs <;> exact key _

theorem provision_shape (penv : ProvisionEnv) (profileName : String) (req : ClusterReq) :
    (∃ e, provision penv profileName req
        = [⟨clusterStatusInitializing, req.Message, some e⟩]) ∨
    (∃ err o, (penv.createDefaultClusterRoles = some err ∨
          createClusterUser penv profileName req.Name = some err) ∧
        provision penv profileName req
          = [⟨clusterStatusInitializing, req.Message, none⟩,
             ⟨clusterStatusFailed, err, o⟩]) ∨
    (∃ o, provision penv profileName req
        = [⟨clusterStatusInitializing, req.Message, none⟩,
           ⟨clusterStatusCompleted, req.Message, o⟩]) := by
  unfold provision
  try simp only []
  cases hu : penv.update { req with Phase := clusterStatusInitializing } with
  | some e => left; exact ⟨e, rfl⟩
  | none =>
    right
    try simp only []
    cases hr : penv.createDefaultClusterRoles with
    | some err => left; exact ⟨err, _, Or.inl rfl, rfl⟩
    | none =>
      try simp only []
      cases hc : createClusterUser penv profileName req.Name with
      | some err => left; exact ⟨err, _, Or.inr rfl, rfl⟩
      | none => right; exact ⟨_, rfl⟩

theorem statusWrites_shape (env : CreateEnv) (penv : ProvisionEnv) :
    statusWrites env penv = [] ∨
    (∃ m c, statusWrites env penv = [⟨clusterStatusSaved, m, c⟩]) ∨
    (∃ m m1 e, statusWrites env penv
        = [⟨clusterStatusSaved, m, none⟩, ⟨clusterStatusInitializing, m1, some e⟩]) ∨
    (∃ m m1 err o, (penv.createDefaultClusterRoles = some err ∨
          ∃ name, createClusterUser penv env.profileName name = some err) ∧
        statusWrites env penv
          = [⟨clusterStatusSaved, m, none⟩, ⟨clusterStatusInitializing, m1, none⟩,
             ⟨clusterStatusFailed, err, o⟩]) ∨
    (∃ m m1 m2 o, statusWrites env penv
        = [⟨clusterStatusSaved, m, none⟩, ⟨clusterStatusInitializing, m1, none⟩,
           ⟨clusterStatusCompleted, m2, o⟩]) := by
  unfold statusWrites
  try simp only []
  rcases CreateCluster_rows env with ⟨h0, hs⟩ | ⟨row, hrow, hrows, hsp⟩
  · left
    simp [h0, hs]
  · right
    by_cases hspawn : Effect.spawnProvision ∈ (CreateCluster env).effects
    · obtain ⟨hcreate, hdata⟩ := hsp hspawn
      simp only [hrows, if_pos hspawn, hdata, List.map_cons, List.map_nil, writeOf, hrow, hcreate]
      rcases provision_shape penv env.profileName row with ⟨e, hp⟩ | ⟨err, o, herr, hp⟩ | ⟨o, hp⟩
      · right; left
        exact ⟨_, _, e, by rw [hp]; rfl⟩
      · right; right; left
        refine ⟨_, _, err, o, ?_, by rw [hp]; rfl⟩
        rcases herr with h | h
        · exact Or.inl h
        · exact Or.inr ⟨_, h⟩
      · right; right; right
        exact ⟨_, _, _, o, by rw [hp]; rfl⟩
    · left
      simp only [hrows, if_neg hspawn, List.map_cons, List.map_nil, writeOf, hrow]
      exact ⟨_, _, rfl⟩

/-- C11, as stated, at a registration that is accepted and whose background
task fails in `CreateDefaultClusterRoles` with an error whose text is empty:
the phase `Failed` is written with an empty status message. -/
theorem failed_with_empty_message :
    statusWrites acceptedEnv (rolesFail "")
      = [⟨"Saved", "", none⟩, ⟨"Initializing", "", none⟩, ⟨"Failed", "", none⟩] ∧
    (⟨"Failed", "", none⟩ : StatusWrite).Phase = clusterStatusFailed ∧
    (⟨"Failed", "", none⟩ : StatusWrite).Message = "" := by
  decide

/-- C11, amended: for every run of `CreateCluster` and its background task,
whatever the outcomes of the downstream and storage calls, the phases handed
to storage, and likewise the phases of the writes storage accepted, form a
prefix of `Saved`, `Initializing`, followed by one of `Completed` or
`Failed`; and whenever the phase `Failed` is written, the status message
written with it is the text of the error returned by
`CreateDefaultClusterRoles` or by `createClusterUser`. -/
theorem onboarding_phases (env : CreateEnv) (penv : ProvisionEnv) :
    (∃ terminal, (terminal = clusterStatusCompleted ∨ terminal = clusterStatusFailed) ∧
      (statusWrites env penv).map (fun w => w.Phase)
        <+: [clusterStatusSaved, clusterStatusInitializing, terminal]) ∧
    (∃ terminal, (terminal = clusterStatusCompleted ∨ terminal = clusterStatusFailed) ∧
      ((statusWrites env penv).filter fun w => w.err = none).map (fun w => w.Phase)
        <+: [clusterStatusSaved, clusterStatusInitializing, terminal]) ∧
    (∀ w ∈ statusWrites env penv, w.Phase = clusterStatusFailed →
      penv.createDefaultClusterRoles = some w.Message ∨
      ∃ name, createClusterUser penv env.profileName name = some w.Message) := by
  have hSF : clusterStatusSaved ≠ clusterStatusFailed := by decide
  have hIF : clusterStatusInitializing ≠ clusterStatusFailed := by decide
  have hCF : clusterStatusCompleted ≠ clusterStatusFailed := by decide
  rcases statusWrites_shape env penv with h | ⟨m, c, h⟩ | ⟨m, m1, e, h⟩ |
      ⟨m, m1, err, o, herr, h⟩ | ⟨m, m1, m2, o, h⟩
  · rw [h]
    refine ⟨⟨_, Or.inl rfl, ⟨_, rfl⟩⟩, ⟨_, Or.inl rfl, ⟨_, rfl⟩⟩, ?_⟩
    intro w hw; cases hw
  · rw [h]
    refine ⟨⟨_, Or.inl rfl, ⟨_, rfl⟩⟩, ?_, ?_⟩
    · cases c with
      | none => exact ⟨_, Or.inl rfl, ⟨_, rfl⟩⟩
      | some e => exact ⟨_, Or.inl rfl, ⟨_, rfl⟩⟩
    · intro w hw hF
      simp only [List.mem_singleton] at hw
      subst hw
      exact absurd hF hSF
  · rw [h]
    refine ⟨⟨_, Or.inl rfl, ⟨_, rfl⟩⟩, ⟨_, Or.inl rfl, ⟨_, rfl⟩⟩, ?_⟩
    intro w hw hF
    simp only [List.mem_cons, List.mem_singleton, List.not_mem_nil, or_false] at hw
    rcases hw with rfl | rfl
    · exact absurd hF hSF
    · exact absurd hF hIF
  · rw [h]
    refine ⟨⟨_, Or.inr rfl, ⟨[], rfl⟩⟩, ?_, ?_⟩
    · cases o with
      | none => exact ⟨_, Or.inr rfl, ⟨[], rfl⟩⟩
      | some e => exact ⟨_, Or.inl rfl, ⟨_, rfl⟩⟩
    · intro w hw hF
      simp only [List.mem_cons, List.mem_singleton, List.not_mem_nil, or_false] at hw
      rcases hw with rfl | rfl | rfl
      · exact absurd hF hSF
      · exact absurd hF hIF
      · exact herr
  · rw [h]
    refine ⟨⟨_, Or.inl rfl, ⟨[], rfl⟩⟩, ?_, ?_⟩
    · cases o with
      | none => exact ⟨_, Or.inl rfl, ⟨[], rfl⟩⟩
      | some e => exact ⟨_, Or.inl rfl, ⟨_, rfl⟩⟩
    · intro w hw hF
      simp only [List.mem_cons, List.mem_singleton, List.not_mem_nil, or_false] at hw
      rcases hw with rfl | rfl | rfl
      · exact absurd hF hSF
      · exact absurd hF hIF
      · exact absurd hF hCF

/-- The runs behind C11: an accepted registration whose background task
succeeds writes `Saved`, `Initializing`, `Completed`; one whose
`CreateDefaultClusterRoles` fails writes `Failed` with the text of the error;
a denied registration writes `Saved` alone. -/
theorem statusWrites_samples :
    statusWrites acceptedEnv smoothProvision
      = [⟨"Saved", "", none⟩, ⟨"Initializing", "", none⟩, ⟨"Completed", "", none⟩] ∧
    statusWrites acceptedEnv (rolesFail "clusterroles is forbidden")
      = [⟨"Saved", "", none⟩, ⟨"Initializing", "", none⟩,
         ⟨"Failed", "clusterroles is forbidden", none⟩] ∧
    statusWrites deniedEnv smoothProvision = [⟨"Saved", "", none⟩] := by
  decide

/-! ## The proxy path -/

/-- C12, on the code: `ensureProxyPathValid` tests the end of the path, not
its start.  The path `api/v1/pods/`, with a trailing and without a leading
`/`, is returned unchanged, so it does not begin with `/`, and appended to
the address of the API server it is not separated from the host. -/
theorem ensureProxyPathValid_keeps_missing_slash :
    ensureProxyPathValid "api/v1/pods/" = "api/v1/pods/" ∧
    (ensureProxyPathValid "api/v1/pods/").data.head? = some 'a' ∧
    Sprintf "%s%s" ["https://10.0.0.1:6443", ensureProxyPathValid "api/v1/pods/"]
      = "https://10.0.0.1:6443api/v1/pods/" := by
  decide

/-- The part of C12 the code keeps: the returned path begins with `/` exactly
when the input does not end with `/` or already begins with `/`. -/
theorem ensureProxyPathValid_leading_slash (path : String) :
    (ensureProxyPathValid path).data.head? = some '/' ↔
      (hasSuffixSlash path = false ∨ path.data.head? = some '/') := by
  unfold ensureProxyPathValid
  cases hs : hasSuffixSlash path with
  | false => simp [String.data_append]
  | true => simp

/-! ## Fan-out merge on the collected slice -/

theorem mergeLoopSlice_map_some (unmarshal : String → Except String NamespaceResourceContainer)
    (rs : List Response) (st : MergeState) :
    mergeLoopSlice unmarshal st (rs.map some) = mergeLoop unmarshal st rs := by
  induction rs generalizing st with
  | nil => rfl
  | cons r rest ih =>
    simp only [List.map_cons, mergeLoopSlice, mergeLoop]
    cases mergeStep unmarshal st r with
    | error f => rfl
    | ok st1 => exact ih st1

theorem mergeSlice_map_some (unmarshal : String → Except String NamespaceResourceContainer)
    (n : Int) (rs : List Response) :
    mergeSlice unmarshal n (rs.map some) = mergeResponses unmarshal n rs := by
  unfold mergeSlice mergeResponses
  rw [mergeLoopSlice_map_some]

theorem mergeLoopSlice_ok_present (unmarshal : String → Except String NamespaceResourceContainer)
    (slots : List (Option Response)) (st st1 : MergeState)
    (h : mergeLoopSlice unmarshal st slots = .ok st1) :
    slots = (present slots).map some := by
  induction slots generalizing st with
  | nil => rfl
  | cons s rest ih =>
    cases s with
    | none => simp [mergeLoopSlice] at h
    | some r =>
      simp only [mergeLoopSlice] at h
      cases hs : mergeStep unmarshal st r with
      | error f => simp [hs] at h
      | ok st2 =>
        simp only [hs] at h
        have := ih st2 h
        simp only [present, List.filterMap_cons, id, List.map_cons] at this ⊢
        rw [← this]

theorem mergeSlice_ok_present (unmarshal : String → Except String NamespaceResourceContainer)
    (n : Int) (slots : List (Option Response)) (m : NamespaceResourceContainer)
    (h : mergeSlice unmarshal n slots = .ok m) : slots = (present slots).map some := by
  unfold mergeSlice at h
  cases hl : mergeLoopSlice unmarshal ⟨NamespaceResourceContainer.zero, 0, []⟩ slots with
  | error f => simp [hl] at h
  | ok st => exact mergeLoopSlice_ok_present unmarshal slots _ st hl

theorem slots_all_present (P : Response → Prop) (slots : List (Option Response))
    (h : ∀ s ∈ slots, ∃ r, s = some r ∧ P r) :
    slots = (present slots).map some ∧ ∀ r ∈ present slots, P r := by
  induction slots with
  | nil => exact ⟨rfl, fun r hr => by cases hr⟩
  | cons s rest ih =>
    obtain ⟨r, rfl, hr⟩ := h s (List.mem_cons_self _ _)
    obtain ⟨h1, h2⟩ := ih fun x hx => h x (List.mem_cons_of_mem _ hx)
    constructor
    · simp only [present, List.filterMap_cons, id, List.map_cons] at h1 ⊢
      rw [← h1]
    · intro x hx
      simp only [present, List.filterMap_cons, id, List.mem_cons] at hx
      rcases hx with rfl | hx
      · exact hr
      · exact h2 x hx

theorem fetch_eq_mergeSlice (get : URL → Except String Response)
    (unmarshal : String → Except String NamespaceResourceContainer)
    (completion : List String → List String) (namespaces : List String) (apiUrl : URL) :
    fetchMultiNamespaceResource get unmarshal completion namespaces apiUrl
      = mergeSlice unmarshal (namespaces.length : Int)
          ((collectResponses get apiUrl (completion namespaces)).1.map some) := by
  rw [mergeSlice_map_some]; rfl

/-- C6, amended: for every content of the slice of collected responses, nil
elements and lost responses included, for which the merge returns a result and
which holds at least one successful response, the type metadata and list
metadata of the result are those of the last successful collected response in
the order the responses are merged, and the items of the result are the
concatenation of the items of the successful collected responses in that
order. -/
theorem merged_metadata_last (unmarshal : String → Except String NamespaceResourceContainer)
    (n : Int) (slots : List (Option Response)) (m : NamespaceResourceContainer)
    (hok : mergeSlice unmarshal n slots = .ok m)
    (hne : successes unmarshal (present slots) ≠ []) :
    m.TypeMeta = ((successes unmarshal (present slots)).getLast hne).TypeMeta ∧
    m.ListMeta = ((successes unmarshal (present slots)).getLast hne).ListMeta ∧
    m.Items = ((successes unmarshal (present slots)).map fun nc => nc.Items).flatten := by
  have hslots := mergeSlice_ok_present unmarshal n slots m hok
  rw [hslots, mergeSlice_map_some] at hok
  have htol := mergeResponses_ok_tolerated unmarshal _ _ m hok
  rw [mergeResponses_tolerated unmarshal _ _ htol] at hok
  split at hok
  · cases hok
  · cases hok
    refine ⟨(foldl_absorb_meta _ _ hne).1, (foldl_absorb_meta _ _ hne).2, ?_⟩
    rw [foldl_absorb_Items]
    simp [NamespaceResourceContainer.zero]

/-- The amended C6 at the collected slice of a fan-out over `a`, `denied` and
`b`: the result carries the metadata of `b`, the last successful response, and
the items of `a` and `b`. -/
theorem merged_metadata_last_witness :
    mergeSlice sampleUnmarshal 3
        [some ⟨200, "A", none⟩, some ⟨403, "pods is forbidden", none⟩, some ⟨200, "B", none⟩]
      = .ok (sampleContainer "102" ["a1", "a2", "b1", "b2"]) ∧
    successes sampleUnmarshal (present
        [some ⟨200, "A", none⟩, some ⟨403, "pods is forbidden", none⟩, some ⟨200, "B", none⟩])
      = [sampleContainer "101" ["a1", "a2"], sampleContainer "102" ["b1", "b2"]] ∧
    (sampleContainer "102" ["a1", "a2", "b1", "b2"]).TypeMeta
      = (sampleContainer "102" ["b1", "b2"]).TypeMeta ∧
    (sampleContainer "102" ["a1", "a2", "b1", "b2"]).ListMeta
      = (sampleContainer "102" ["b1", "b2"]).ListMeta ∧
    (sampleContainer "102" ["a1", "a2", "b1", "b2"]).Items
      = ([sampleContainer "101" ["a1", "a2"], sampleContainer "102" ["b1", "b2"]].map
          fun nc => nc.Items).flatten :=
  ⟨by decide, by decide,
    merged_metadata_last sampleUnmarshal 3
      [some ⟨200, "A", none⟩, some ⟨403, "pods is forbidden", none⟩, some ⟨200, "B", none⟩]
      (sampleContainer "102" ["a1", "a2", "b1", "b2"]) (by decide) (by decide)⟩

theorem forbiddenBodies_mem (rs : List Response) (b : String) (h : b ∈ forbiddenBodies rs) :
    ∃ r ∈ rs, r.StatusCode = 403 ∧ r.Body = b := by
  simp only [forbiddenBodies, List.mem_map, List.mem_filter, decide_eq_true_eq] at h
  obtain ⟨r, ⟨hr, h403⟩, hb⟩ := h
  exact ⟨r, hr, h403, hb⟩

/-- C7, as stated, at a fan-out over the namespaces `a` and `cut`: `a` answers
200 with a decodable body and `cut` answers 403, so every collected response
is a 200 with a decodable body or a 403 and two namespaces were attempted; the
body of the 403 cannot be read, and the call fails with the read error instead
of skipping the 403.  Over `cut` alone the call fails with the read error, not
with the 403 body. -/
theorem unreadable_forbidden_aborts :
    sampleGetCut (namespaceUrl sampleApiUrl "a") = .ok ⟨200, "A", none⟩ ∧
    sampleUnmarshal "A" = .ok (sampleContainer "101" ["a1", "a2"]) ∧
    sampleGetCut (namespaceUrl sampleApiUrl "cut") = .ok ⟨403, "", some "unexpected EOF"⟩ ∧
    mergeSlice sampleUnmarshal 2
        [some ⟨200, "A", none⟩, some ⟨403, "", some "unexpected EOF"⟩]
      = .error (.error "unexpected EOF") ∧
    fetchMultiNamespaceResource sampleGetCut sampleUnmarshal id ["a", "cut"] sampleApiUrl
      = .error (.error "unexpected EOF") ∧
    fetchMultiNamespaceResource sampleGetCut sampleUnmarshal id ["cut"] sampleApiUrl
      = .error (.error "unexpected EOF") := by
  decide

/-- C7, amended: for every content of the slice of collected responses in
which every element is a response that was read without error and is a 200
with a decodable body or a 403, the merge returns an error, carrying the body
of a collected 403, when exactly one namespace was attempted and exactly one
collected response is a 403; in every other case it returns a merged result
whose items are the concatenated items of the collected 200 responses, the 403
responses contributing none.  With at most one collected response, as when one
namespace is attempted, "exactly one collected response is a 403" says that
the collected response is a 403. -/
theorem forbidden_only_when_sole (unmarshal : String → Except String NamespaceResourceContainer)
    (n : Int) (slots : List (Option Response))
    (htol : ∀ s ∈ slots, ∃ r, s = some r ∧ Tolerated unmarshal r) :
    ((n = 1 ∧ (forbiddenBodies (present slots)).length = 1) →
      ∃ r ∈ present slots, r.StatusCode = 403 ∧
        mergeSlice unmarshal n slots = .error (.error r.Body)) ∧
    (¬ (n = 1 ∧ (forbiddenBodies (present slots)).length = 1) →
      ∃ m, mergeSlice unmarshal n slots = .ok m ∧
        m.Items = ((successes unmarshal (present slots)).map fun nc => nc.Items).flatten) ∧
    (slots.length ≤ 1 →
      ((forbiddenBodies (present slots)).length = 1 ↔
        ∃ r, slots = [some r] ∧ r.StatusCode = 403)) := by
  obtain ⟨hslots, hall⟩ := slots_all_present (Tolerated unmarshal) slots htol
  have hmerge : mergeSlice unmarshal n slots
      = if n = 1 ∧ ((forbiddenBodies (present slots)).length : Int) = 1 then
          .error (.error (joinEmpty (forbiddenBodies (present slots))))
        else
          .ok ((successes unmarshal (present slots)).foldl absorb
            NamespaceResourceContainer.zero) := by
    conv_lhs => rw [hslots]
    rw [mergeSlice_map_some, mergeResponses_tolerated unmarshal n _ hall]
  refine ⟨?_, ?_, ?_⟩
  · rintro ⟨hn, hf⟩
    obtain ⟨b, hb⟩ := List.length_eq_one.mp hf
    obtain ⟨r, hr, h403, hbody⟩ := forbiddenBodies_mem (present slots) b (by rw [hb]; simp)
    refine ⟨r, hr, h403, ?_⟩
    rw [hmerge, if_pos ⟨hn, by exact_mod_cast hf⟩, hb, joinEmpty_singleton, hbody]
  · intro hnot
    have hcond : ¬ (n = 1 ∧ ((forbiddenBodies (present slots)).length : Int) = 1) :=
      fun h => hnot ⟨h.1, by exact_mod_cast h.2⟩
    rw [hmerge, if_neg hcond]
    refine ⟨_, rfl, ?_⟩
    rw [foldl_absorb_Items]
    simp [NamespaceResourceContainer.zero]
  · intro hlen
    constructor
    · intro hf
      match slots, hlen, hf with
      | [], _, hf => simp [present, forbiddenBodies] at hf
      | [none], _, hf => simp [present, forbiddenBodies] at hf
      | [some r], _, hf =>
        refine ⟨r, rfl, ?_⟩
        by_contra h403
        simp [present, forbiddenBodies_singleton, h403] at hf
      | _ :: _ :: _, hlen, _ => simp at hlen
    · rintro ⟨r, rfl, h403⟩
      simp [present, forbiddenBodies_singleton, h403]

/-- The amended C7 at the collected slice of a fan-out over the single
namespace `denied`, which answers 403 with a readable body: the call fails
with the 403 body. -/
theorem forbidden_only_when_sole_witness :
    (∀ s ∈ [some (⟨403, "pods is forbidden", none⟩ : Response)],
      ∃ r, s = some r ∧ Tolerated sampleUnmarshal r) ∧
    (∃ r ∈ present [some (⟨403, "pods is forbidden", none⟩ : Response)],
      r.StatusCode = 403 ∧
      mergeSlice sampleUnmarshal 1 [some ⟨403, "pods is forbidden", none⟩]
        = .error (.error r.Body)) ∧
    mergeSlice sampleUnmarshal 1 [some ⟨403, "pods is forbidden", none⟩]
      = .error (.error "pods is forbidden") ∧
    fetchMultiNamespaceResource sampleGet sampleUnmarshal id ["denied"] sampleApiUrl
      = .error (.error "pods is forbidden") := by
  have htol : ∀ s ∈ [some (⟨403, "pods is forbidden", none⟩ : Response)],
      ∃ r, s = some r ∧ Tolerated sampleUnmarshal r := by
    intro s hs
    simp only [List.mem_singleton] at hs
    subst hs
    exact ⟨_, rfl, by decide⟩
  exact ⟨htol,
    (forbidden_only_when_sole sampleUnmarshal 1 _ htol).1 ⟨rfl, by decide⟩,
    by decide, by decide⟩

end KubePi
